import Mathlib

/-!
# Predator/prey simulation on a toroidal grid

A shallow embedding of the simulation engine of `src/main.cpp` (classes `Animal`,
`Prey`, `Predator`, `GameSimulation`) and, in the namespace `A2`, of what
`src/main_a2.cpp` changes in it, together with the properties proved about them.

Conventions of the embedding:

* C++ `int` is `Int`; signed overflow (undefined in C++) is not modelled.
  `%` is the truncating remainder `Int.tmod`.
* An object behind `std::unique_ptr<Animal>` is an `Entity`: a `Prey` or a `Predator`,
  each carrying the fields of the base class `Animal`.
* `std::vector` is `List`. The call `animals.erase(animals.begin() + idx)` has undefined
  behaviour in C++ when `idx` is not smaller than the size of the vector. The functions
  `removeVictimsChecked`, `processPredationChecked`, `simulateStepChecked` and
  `simulateChecked` are the code with that case as the failure `none`. The functions
  `removeVictims`, `processPredation`, `simulateStep` and `simulate` are the same code
  under the convention that such an `erase` leaves the vector unchanged
  (`List.eraseIdx`); whenever the checked function returns a result, it is the result
  of the unchecked one.
* Member functions that mutate their object return the updated object.
-/

namespace PredatorPrey

/-! ## Data model -/

/-- The enumeration `Direction { UP = 0, RIGHT = 1, DOWN = 2, LEFT = 3 }`. -/
inductive Direction where
  | UP
  | RIGHT
  | DOWN
  | LEFT
deriving DecidableEq, Repr

/-- The integer value of an enumerator. -/
def Direction.toInt : Direction → Int
  | .UP => 0
  | .RIGHT => 1
  | .DOWN => 2
  | .LEFT => 3

/-- The conversion `Direction(n)` used by `Animal::move`; the argument there is a
remainder modulo 4 of a non-negative number, so only 0..3 occur. -/
def Direction.ofInt (n : Int) : Direction :=
  if n = 0 then .UP else if n = 1 then .RIGHT else if n = 2 then .DOWN else .LEFT

/-- The fields of the base class `Animal`. -/
structure Animal where
  posX : Int
  posY : Int
  direction : Direction
  turnPeriod : Int
  age : Int
  moveSteps : Int
  turnCounter : Int
deriving DecidableEq, Repr

/-- The constructor `Animal(x, y, d, k, steps)`: age and turn counter start at 0. -/
def Animal.new (x y : Int) (d : Direction) (k steps : Int) : Animal :=
  { posX := x, posY := y, direction := d, turnPeriod := k, age := 0,
    moveSteps := steps, turnCounter := 0 }

/-- One iteration of the loop in `Animal::move`: a unit step in the current direction,
wrapped with the C++ remainder. -/
def Animal.moveOnce (fieldWidth fieldHeight : Int) (a : Animal) : Animal :=
  match a.direction with
  | .UP => { a with posY := (a.posY - 1 + fieldHeight).tmod fieldHeight }
  | .RIGHT => { a with posX := (a.posX + 1).tmod fieldWidth }
  | .DOWN => { a with posY := (a.posY + 1).tmod fieldHeight }
  | .LEFT => { a with posX := (a.posX - 1 + fieldWidth).tmod fieldWidth }

/-- The loop `for (int i = 0; i < moveSteps; ++i)` of `Animal::move`, by recursion on
the number of remaining iterations. -/
def Animal.moveLoop (fieldWidth fieldHeight : Int) : Nat → Animal → Animal
  | 0, a => a
  | n + 1, a => Animal.moveLoop fieldWidth fieldHeight n (a.moveOnce fieldWidth fieldHeight)

/-- The tail of `Animal::move`: `turnCounter++`, and a rotation with a reset of the
counter when it has reached `turnPeriod`. -/
def Animal.turn (a : Animal) : Animal :=
  let tc := a.turnCounter + 1
  if tc ≥ a.turnPeriod then
    { a with direction := Direction.ofInt ((a.direction.toInt + 1).tmod 4), turnCounter := 0 }
  else
    { a with turnCounter := tc }

/-- The member function `Animal::move(fieldWidth, fieldHeight)`. -/
def Animal.move (fieldWidth fieldHeight : Int) (a : Animal) : Animal :=
  (Animal.moveLoop fieldWidth fieldHeight a.moveSteps.toNat a).turn

/-- The member function `Animal::increaseAge`. -/
def Animal.increaseAge (a : Animal) : Animal :=
  { a with age := a.age + 1 }

/-- The class `Prey`: the base fields and the two flags. -/
structure Prey extends Animal where
  hasReproduced1 : Bool
  hasReproduced2 : Bool
deriving DecidableEq, Repr

/-- The class `Predator` of `src/main.cpp`: the base fields, `preyEaten` and
`reproduced`. -/
structure Predator extends Animal where
  preyEaten : Int
  reproduced : Int
deriving DecidableEq, Repr

/-- The constant `Prey::MAX_AGE`. -/
def Prey.MAX_AGE : Int := 10

/-- The constant `Predator::MAX_AGE`. -/
def Predator.MAX_AGE : Int := 20

/-- The constructor `Prey(x, y, d, k)`: one unit step per move, both flags false. -/
def Prey.new (x y : Int) (d : Direction) (k : Int) : Prey :=
  { toAnimal := Animal.new x y d k 1, hasReproduced1 := false, hasReproduced2 := false }

/-- The constructor `Predator(x, y, d, k)`: two unit steps per move, `preyEaten` 0 and
the default member initialiser `reproduced = 1`. -/
def Predator.new (x y : Int) (d : Direction) (k : Int) : Predator :=
  { toAnimal := Animal.new x y d k 2, preyEaten := 0, reproduced := 1 }

/-- The override `Prey::canReproduce`. -/
def Prey.canReproduce (p : Prey) : Bool :=
  (p.age == 5 && !p.hasReproduced1) || (p.age == 10 && !p.hasReproduced2)

/-- The override `Prey::reproduce`: the object itself is not changed; the result is
the new prey. -/
def Prey.reproduce (p : Prey) : Prey × Prey :=
  (p, Prey.new p.posX p.posY p.direction p.turnPeriod)

/-- The override `Prey::isDead`. -/
def Prey.isDead (p : Prey) : Bool :=
  decide (p.age ≥ Prey.MAX_AGE)

/-- The override `Predator::eat`. -/
def Predator.eat (p : Predator) : Predator :=
  { p with preyEaten := p.preyEaten + 1 }

/-- The member function `Predator::reduceHunger`; no phase of a step calls it. -/
def Predator.reduceHunger (p : Predator) (amount : Int) : Predator :=
  { p with preyEaten := max 0 (p.preyEaten - amount) }

/-- The override `Predator::canReproduce` of `src/main.cpp`. -/
def Predator.canReproduce (p : Predator) : Bool :=
  decide (p.preyEaten ≥ 2 * p.reproduced)

/-- The override `Predator::reproduce` of `src/main.cpp`: `reproduced++` on the object,
and the new predator as result. -/
def Predator.reproduce (p : Predator) : Predator × Predator :=
  ({ p with reproduced := p.reproduced + 1 },
   Predator.new p.posX p.posY p.direction p.turnPeriod)

/-- The override `Predator::isDead`. -/
def Predator.isDead (p : Predator) : Bool :=
  decide (p.age ≥ Predator.MAX_AGE)

/-- An object owned by the simulation through `std::unique_ptr<Animal>`. -/
inductive Entity where
  | prey (p : Prey)
  | predator (p : Predator)
deriving DecidableEq, Repr

namespace Entity

/-- The base-class part of the object. -/
def toAnimal : Entity → Animal
  | prey p => p.toAnimal
  | predator p => p.toAnimal

/-- The virtual function `isPredator`. -/
def isPredator : Entity → Bool
  | prey _ => false
  | predator _ => true

/-- The virtual function `isHungry`. -/
def isHungry : Entity → Bool
  | prey _ => false
  | predator _ => true

/-- The accessor `getX`. -/
def getX (e : Entity) : Int := e.toAnimal.posX

/-- The accessor `getY`. -/
def getY (e : Entity) : Int := e.toAnimal.posY

/-- The accessor `getDirection`. -/
def getDirection (e : Entity) : Direction := e.toAnimal.direction

/-- The accessor `getTurnPeriod`. -/
def getTurnPeriod (e : Entity) : Int := e.toAnimal.turnPeriod

/-- The call `animal->move(width, height)`: the base-class function on the base
fields, the derived fields untouched. -/
def move (fieldWidth fieldHeight : Int) : Entity → Entity
  | prey p => prey { p with toAnimal := p.toAnimal.move fieldWidth fieldHeight }
  | predator p => predator { p with toAnimal := p.toAnimal.move fieldWidth fieldHeight }

/-- The call `animal->increaseAge()`. -/
def increaseAge : Entity → Entity
  | prey p => prey { p with toAnimal := p.toAnimal.increaseAge }
  | predator p => predator { p with toAnimal := p.toAnimal.increaseAge }

/-- The virtual function `eat`: empty for a prey. -/
def eat : Entity → Entity
  | prey p => prey p
  | predator p => predator p.eat

/-- The virtual function `canReproduce`. -/
def canReproduce : Entity → Bool
  | prey p => p.canReproduce
  | predator p => p.canReproduce

/-- The virtual function `reproduce`: the object after the call and the new object. -/
def reproduce : Entity → Entity × Entity
  | prey p => (prey p.reproduce.1, prey p.reproduce.2)
  | predator p => (predator p.reproduce.1, predator p.reproduce.2)

/-- The virtual function `isDead`. -/
def isDead : Entity → Bool
  | prey p => p.isDead
  | predator p => p.isDead

end Entity

/-! ## The simulation -/

/-- The function `GameSimulation::moveAnimals`. -/
def moveAnimals (width height : Int) (animals : List Entity) : List Entity :=
  animals.map (Entity.move width height)

/-- The body of the inner loop of `processPredation` at `preyIdx`, on the state
(`animals`, `preyToRemove`). -/
def markInnerStep (predIdx : Nat) (st : List Entity × List Nat) (preyIdx : Nat) :
    List Entity × List Nat :=
  match st.1[predIdx]?, st.1[preyIdx]? with
  | some pred, some victim =>
    if victim.isPredator then st
    else if pred.getX = victim.getX ∧ pred.getY = victim.getY then
      (st.1.set predIdx pred.eat, st.2 ++ [preyIdx])
    else st
  | _, _ => st

/-- The body of the outer loop of `processPredation` at `predIdx`. -/
def markOuterStep (st : List Entity × List Nat) (predIdx : Nat) : List Entity × List Nat :=
  match st.1[predIdx]? with
  | some pred =>
    if !pred.isPredator then st
    else (List.range st.1.length).foldl (markInnerStep predIdx) st
  | none => st

/-- The marking pass of `processPredation` (the two nested index loops): the
population with the predators credited, and `preyToRemove` in the order of the
`push_back` calls. -/
def markVictims (animals : List Entity) : List Entity × List Nat :=
  (List.range animals.length).foldl markOuterStep (animals, [])

/-- The call `std::sort(preyToRemove.begin(), preyToRemove.end(), std::greater<size_t>())`:
the indices in non-increasing order. -/
def sortGreater (preyToRemove : List Nat) : List Nat :=
  preyToRemove.insertionSort (fun a b => a ≥ b)

/-- The removal loop `for (size_t idx : preyToRemove) animals.erase(animals.begin() + idx)`
under the convention that an `erase` at an index not smaller than the size of the vector
leaves the vector unchanged. In C++ that call has undefined behaviour; the loop with
that case as a failure is `removeVictimsChecked`. -/
def removeVictims {α : Type} (animals : List α) (preyToRemove : List Nat) : List α :=
  preyToRemove.foldl (fun l idx => l.eraseIdx idx) animals

/-- The function `GameSimulation::processPredation`, with the removal loop under the
convention of `removeVictims`. -/
def processPredation (animals : List Entity) : List Entity :=
  let st := markVictims animals
  removeVictims st.1 (sortGreater st.2)

/-- The function `GameSimulation::aging`. -/
def aging (animals : List Entity) : List Entity :=
  animals.map Entity.increaseAge

/-- The first loop of `GameSimulation::reproduction`: every animal is asked once, in
order; the result is the animals after their `reproduce` calls and `newAnimals`. -/
def reproductionLoop : List Entity → List Entity × List Entity
  | [] => ([], [])
  | animal :: rest =>
    let r := reproductionLoop rest
    if animal.canReproduce then
      (animal.reproduce.1 :: r.1, animal.reproduce.2 :: r.2)
    else
      (animal :: r.1, r.2)

/-- The function `GameSimulation::reproduction`: the second loop appends `newAnimals`. -/
def reproduction (animals : List Entity) : List Entity :=
  let r := reproductionLoop animals
  r.1 ++ r.2

/-- The function `GameSimulation::extinction` (erase-remove of the dead). -/
def extinction (animals : List Entity) : List Entity :=
  animals.filter (fun animal => !animal.isDead)

/-- The function `GameSimulation::simulateStep` on the population of a simulation of
size `width` x `height`, with the removal loop under the convention of
`removeVictims`. -/
def simulateStep (width height : Int) (animals : List Entity) : List Entity :=
  extinction (reproduction (aging (processPredation (moveAnimals width height animals))))

/-- The loop of `main` that calls `simulateStep` `steps` times. -/
def simulate (width height : Int) : Nat → List Entity → List Entity
  | 0, animals => animals
  | steps + 1, animals => simulateStep width height (simulate width height steps animals)

/-! ## Vocabulary of the statements -/

/-- The test of the inner loop of `processPredation`: `victim` is a prey and stands on
the cell of `pred`. -/
def Entity.catches (pred victim : Entity) : Bool :=
  !victim.isPredator && decide (pred.getX = victim.getX ∧ pred.getY = victim.getY)

/-- The object after `n` calls of `eat`. -/
def Entity.eatTimes : Nat → Entity → Entity
  | 0, e => e
  | n + 1, e => (Entity.eatTimes n e).eat

/-- The inner-loop test at index `preyIdx` of `animals`, for the predator `pred`. -/
def caught (animals : List Entity) (pred : Entity) (preyIdx : Nat) : Bool :=
  match animals[preyIdx]? with
  | some victim => pred.catches victim
  | none => false

/-- The indices that iteration `predIdx` of the outer loop of `processPredation` pushes
to `preyToRemove`, in order. -/
def hitsOf (animals : List Entity) (predIdx : Nat) : List Nat :=
  match animals[predIdx]? with
  | some pred =>
    if pred.isPredator then (List.range animals.length).filter (caught animals pred) else []
  | none => []

/-- The population after iteration `i` of the outer loop of `processPredation`: the
animal at `i` has eaten once per index pushed in that iteration. -/
def creditAt (l : List Entity) (i : Nat) : List Entity :=
  match l[i]? with
  | some e => l.set i (e.eatTimes (hitsOf l i).length)
  | none => l

/-- What the marking pass reads of an animal: its species and its cell. -/
def cellOf (e : Entity) : Bool × Int × Int := (e.isPredator, e.getX, e.getY)

/-- The change of `posX` of one unit step in a direction, before wrapping. -/
def Direction.dx : Direction → Int
  | .UP => 0
  | .RIGHT => 1
  | .DOWN => 0
  | .LEFT => -1

/-- The change of `posY` of one unit step in a direction, before wrapping. -/
def Direction.dy : Direction → Int
  | .UP => -1
  | .RIGHT => 0
  | .DOWN => 1
  | .LEFT => 0

/-- The cyclic successor of a direction: UP, RIGHT, DOWN, LEFT, UP. -/
def Direction.successor : Direction → Direction
  | .UP => .RIGHT
  | .RIGHT => .DOWN
  | .DOWN => .LEFT
  | .LEFT => .UP

/-- The value the constructors `Prey(...)` and `Predator(...)` pass for `moveSteps`:
1 for a prey, 2 for a predator. -/
def Entity.stepsPerMove (e : Entity) : Int := if e.isPredator then 2 else 1

/-- A population as `main` builds it on a 4x4 grid from the input
`2 2  0 1 2 1  3 3 1 1  0 0 2 1  0 0 2 1`: two prey, then two predators that start on
the same cell. After the movement phase the first prey and both predators stand on
(0,2) and the second prey stands alone on (0,3). -/
def twoHuntersPopulation : List Entity :=
  [Entity.prey (Prey.new 0 1 .DOWN 1), Entity.prey (Prey.new 3 3 .RIGHT 1),
   Entity.predator (Predator.new 0 0 .DOWN 1), Entity.predator (Predator.new 0 0 .DOWN 1)]

/-- The population `twoHuntersPopulation` without its second prey. -/
def twoHuntersOnePrey : List Entity :=
  [Entity.prey (Prey.new 0 1 .DOWN 1),
   Entity.predator (Predator.new 0 0 .DOWN 1), Entity.predator (Predator.new 0 0 .DOWN 1)]

/-- The consumed count of an animal: `preyEaten` for a predator; a prey has none and
counts as 0. -/
def Entity.consumed : Entity → Int
  | .prey _ => 0
  | .predator p => p.preyEaten

/-- The number of reproductions a predator has behind it: `reproduced` starts at 1 in
the member initialiser and `reproduce` adds 1 each time. -/
def Predator.priorReproductions (p : Predator) : Int := p.reproduced - 1

/-- An animal after the first loop of `reproduction` has asked it: after its
`reproduce` call when `canReproduce` held, untouched otherwise. -/
def Entity.afterReproduce (e : Entity) : Entity :=
  if e.canReproduce then e.reproduce.1 else e

/-- What one `simulateStep` on a grid of the given size does to an animal that the
predation phase credits with `eats` prey and does not erase: the phases in their order,
each as it acts on one animal. -/
def Entity.lifeStep (width height : Int) (eats : Nat) (e : Entity) : Entity :=
  (((e.move width height).eatTimes eats).increaseAge).afterReproduce

/-- The animal after its first `n` steps, when step `i + 1` credits it with `eats i`
prey. -/
def Entity.life (width height : Int) (eats : Nat → Nat) : Nat → Entity → Entity
  | 0, e => e
  | n + 1, e => (Entity.life width height eats n e).lifeStep width height (eats n)

/-- The population that `main` of `src/main.cpp` builds from `PRESET_SCENARIO`
(`4 4 20 1 1 0 0 1 100 0 3 0 100`) on its 4x4 grid: one prey, then one predator. -/
def presetScenario : List Entity :=
  [Entity.prey (Prey.new 0 0 .RIGHT 100), Entity.predator (Predator.new 0 3 .UP 100)]

/-- The position invariant of the data model on a grid of the given size:
`0 ≤ x < width` and `0 ≤ y < height`. -/
def Entity.inBounds (width height : Int) (e : Entity) : Bool :=
  decide (0 ≤ e.getX ∧ e.getX < width ∧ 0 ≤ e.getY ∧ e.getY < height)

/-- The statement `field[y][x] += d` of `printField`. Both `operator[]` calls take the
`int` index as a `size_t`; the result is `none` when one of them is out of range
(undefined behaviour in C++). -/
def bumpCell (field : List (List Int)) (x y d : Int) : Option (List (List Int)) :=
  if 0 ≤ y ∧ 0 ≤ x then
    match field[y.toNat]? with
    | some row =>
      match row[x.toNat]? with
      | some cell => some (field.set y.toNat (row.set x.toNat (cell + d)))
      | none => none
    | none => none
  else none

/-- The counting loop of `printField` over the animals, on the table `field`. -/
def countAnimals : List Entity → List (List Int) → Option (List (List Int))
  | [], field => some field
  | animal :: rest, field =>
    match bumpCell field animal.getX animal.getY (if animal.isPredator then -1 else 1) with
    | some f => countAnimals rest f
    | none => none

/-- The table that `printField` prints: `height` rows of `width` zeros, then the
counting loop. -/
def printFieldCounts (width height : Int) (animals : List Entity) : Option (List (List Int)) :=
  countAnimals animals (List.replicate height.toNat (List.replicate width.toNat 0))
/-- The entry `field[y][x]` of a table, when both indices are in range. -/
def cellAt (field : List (List Int)) (x y : Nat) : Option Int :=
  match field[y]? with
  | some row => row[x]?
  | none => none

/-- A table of `rows` rows of `cols` entries each. -/
def hasShape (field : List (List Int)) (cols rows : Nat) : Prop :=
  field.length = rows ∧ ∀ row ∈ field, row.length = cols

/-- The number of prey of a population on the cell (x, y). -/
def preyOn (animals : List Entity) (x y : Int) : Nat :=
  animals.countP (fun a => !a.isPredator && decide (a.getX = x ∧ a.getY = y))

/-- The number of predators of a population on the cell (x, y). -/
def predatorsOn (animals : List Entity) (x y : Int) : Nat :=
  animals.countP (fun a => a.isPredator && decide (a.getX = x ∧ a.getY = y))

/-- The population of the end-to-end scenario on the 3x3 grid: a prey added at (2,1)
facing RIGHT with `turnPeriod` 1, then a predator added at (1,1) facing UP with
`turnPeriod` 2. -/
def endToEndScenario : List Entity :=
  [Entity.prey (Prey.new 2 1 .RIGHT 1), Entity.predator (Predator.new 1 1 .UP 2)]

/-- The class `GameSimulation`: the size of the grid and the animals it owns. -/
structure GameSimulation where
  width : Int
  height : Int
  animals : List Entity

/-- The constructor `GameSimulation(w, h)`: an empty population. -/
def GameSimulation.new (w h : Int) : GameSimulation :=
  { width := w, height := h, animals := [] }

/-- The member function `GameSimulation::addAnimal`: `animals.emplace_back(animal)`,
with no test of the animal. -/
def GameSimulation.addAnimal (sim : GameSimulation) (animal : Entity) : GameSimulation :=
  { sim with animals := sim.animals ++ [animal] }

/-- The removal loop `for (size_t idx : preyToRemove) animals.erase(animals.begin() + idx)`
of `processPredation`: `none` as soon as an index is not smaller than the current size of
the vector, where the `erase` has undefined behaviour. -/
def removeVictimsChecked {α : Type} : List α → List Nat → Option (List α)
  | animals, [] => some animals
  | animals, idx :: rest =>
    if idx < animals.length then removeVictimsChecked (animals.eraseIdx idx) rest else none

/-- The function `GameSimulation::processPredation`: `none` when an `erase` of the
removal loop has undefined behaviour. -/
def processPredationChecked (animals : List Entity) : Option (List Entity) :=
  let st := markVictims animals
  removeVictimsChecked st.1 (sortGreater st.2)

/-- The function `GameSimulation::simulateStep`: `none` when an `erase` of the predation
phase has undefined behaviour; otherwise the other phases run on what the predation
phase returns. -/
def simulateStepChecked (width height : Int) (animals : List Entity) : Option (List Entity) :=
  match processPredationChecked (moveAnimals width height animals) with
  | some survivors => some (extinction (reproduction (aging survivors)))
  | none => none

/-- The loop of `main` that calls `simulateStep` `steps` times: `none` when one of the
steps has undefined behaviour. -/
def simulateChecked (width height : Int) : Nat → List Entity → Option (List Entity)
  | 0, animals => some animals
  | steps + 1, animals =>
    match simulateChecked width height steps animals with
    | some population => simulateStepChecked width height population
    | none => none

/-- A population as `main` builds it on a 4x4 grid from the input
`2 3  0 1 2 1  0 1 2 1  0 0 2 1  0 0 2 1  0 0 2 1`: two prey, then three predators,
every animal inside the grid. After the first movement all five stand on (0,2). -/
def twoPreyThreeHunters : List Entity :=
  [Entity.prey (Prey.new 0 1 .DOWN 1), Entity.prey (Prey.new 0 1 .DOWN 1),
   Entity.predator (Predator.new 0 0 .DOWN 1), Entity.predator (Predator.new 0 0 .DOWN 1),
   Entity.predator (Predator.new 0 0 .DOWN 1)]

/-- The animal `v` is a prey on the cell of a predator of `animals`. -/
def isVictim (animals : List Entity) (v : Entity) : Bool :=
  animals.any (fun p => p.isPredator && p.catches v)

/-- The bound on the reproductions of a predator: twice the number of reproductions it
has behind it is at most its consumed count. A prey has neither counter. -/
def Entity.withinQuota : Entity → Bool
  | .prey _ => true
  | .predator p => decide (2 * p.priorReproductions ≤ p.preyEaten)

/-! ## The variant `src/main_a2.cpp`

The classes `Animal` and `Prey` and every phase of the step are those of `src/main.cpp`;
`Predator` has no `reproduced` member, `canReproduce` has the constant threshold 2, and
`reproduce` is `const`. The lines that `simulateStep` prints between the phases are not
modelled. -/

namespace A2

/-- The class `Predator` of `src/main_a2.cpp`: the base fields and `preyEaten`. -/
structure Predator extends Animal where
  preyEaten : Int
deriving DecidableEq, Repr

/-- The constant `Predator::MAX_AGE` of `src/main_a2.cpp`. -/
def Predator.MAX_AGE : Int := 20

/-- The constructor `Predator(x, y, d, k)` of `src/main_a2.cpp`. -/
def Predator.new (x y : Int) (d : Direction) (k : Int) : Predator :=
  { toAnimal := Animal.new x y d k 2, preyEaten := 0 }

/-- The override `Predator::eat` of `src/main_a2.cpp`. -/
def Predator.eat (p : Predator) : Predator :=
  { p with preyEaten := p.preyEaten + 1 }

/-- The member function `Predator::reduceHunger` of `src/main_a2.cpp`; no phase of a
step calls it. -/
def Predator.reduceHunger (p : Predator) (amount : Int) : Predator :=
  { p with preyEaten := max 0 (p.preyEaten - amount) }

/-- The override `Predator::canReproduce` of `src/main_a2.cpp`. -/
def Predator.canReproduce (p : Predator) : Bool :=
  decide (p.preyEaten ≥ 2)

/-- The override `Predator::reproduce` of `src/main_a2.cpp`: a `const` function, the
result is the new predator. -/
def Predator.reproduce (p : Predator) : Predator :=
  Predator.new p.posX p.posY p.direction p.turnPeriod

/-- The override `Predator::isDead` of `src/main_a2.cpp`. -/
def Predator.isDead (p : Predator) : Bool :=
  decide (p.age ≥ Predator.MAX_AGE)

/-- An object owned by the simulation of `src/main_a2.cpp`. -/
inductive Entity where
  | prey (p : Prey)
  | predator (p : Predator)
deriving DecidableEq, Repr

/-- The base-class part of the object. -/
def Entity.toAnimal : Entity → Animal
  | .prey p => p.toAnimal
  | .predator p => p.toAnimal

/-- The virtual function `isPredator`. -/
def Entity.isPredator : Entity → Bool
  | .prey _ => false
  | .predator _ => true

/-- The accessor `getX`. -/
def Entity.getX (e : Entity) : Int := e.toAnimal.posX

/-- The accessor `getY`. -/
def Entity.getY (e : Entity) : Int := e.toAnimal.posY

/-- The call `animal->move(width, height)`. -/
def Entity.move (fieldWidth fieldHeight : Int) : Entity → Entity
  | .prey p => .prey { p with toAnimal := p.toAnimal.move fieldWidth fieldHeight }
  | .predator p => .predator { p with toAnimal := p.toAnimal.move fieldWidth fieldHeight }

/-- The call `animal->increaseAge()`. -/
def Entity.increaseAge : Entity → Entity
  | .prey p => .prey { p with toAnimal := p.toAnimal.increaseAge }
  | .predator p => .predator { p with toAnimal := p.toAnimal.increaseAge }

/-- The virtual function `eat`: empty for a prey. -/
def Entity.eat : Entity → Entity
  | .prey p => .prey p
  | .predator p => .predator p.eat

/-- The virtual function `canReproduce`. -/
def Entity.canReproduce : Entity → Bool
  | .prey p => p.canReproduce
  | .predator p => p.canReproduce

/-- The virtual function `reproduce`, `const` in `src/main_a2.cpp`: the new object. -/
def Entity.reproduce : Entity → Entity
  | .prey p => .prey (Prey.new p.posX p.posY p.direction p.turnPeriod)
  | .predator p => .predator p.reproduce

/-- The virtual function `isDead`. -/
def Entity.isDead : Entity → Bool
  | .prey p => p.isDead
  | .predator p => p.isDead

/-- The consumed count of an animal of `src/main_a2.cpp`; 0 for a prey. -/
def Entity.consumed : Entity → Int
  | .prey _ => 0
  | .predator p => p.preyEaten

/-- The function `GameSimulation::moveAnimals`. -/
def moveAnimals (width height : Int) (animals : List Entity) : List Entity :=
  animals.map (Entity.move width height)

/-- The body of the inner loop of `processPredation` at `preyIdx`. -/
def markInnerStep (predIdx : Nat) (st : List Entity × List Nat) (preyIdx : Nat) :
    List Entity × List Nat :=
  match st.1[predIdx]?, st.1[preyIdx]? with
  | some pred, some victim =>
    if victim.isPredator then st
    else if pred.getX = victim.getX ∧ pred.getY = victim.getY then
      (st.1.set predIdx pred.eat, st.2 ++ [preyIdx])
    else st
  | _, _ => st

/-- The body of the outer loop of `processPredation` at `predIdx`. -/
def markOuterStep (st : List Entity × List Nat) (predIdx : Nat) : List Entity × List Nat :=
  match st.1[predIdx]? with
  | some pred =>
    if !pred.isPredator then st
    else (List.range st.1.length).foldl (markInnerStep predIdx) st
  | none => st

/-- The marking pass of `processPredation`. -/
def markVictims (animals : List Entity) : List Entity × List Nat :=
  (List.range animals.length).foldl markOuterStep (animals, [])

/-- The function `GameSimulation::processPredation`. -/
def processPredation (animals : List Entity) : List Entity :=
  let st := markVictims animals
  removeVictims st.1 (sortGreater st.2)

/-- The function `GameSimulation::aging`. -/
def aging (animals : List Entity) : List Entity :=
  animals.map Entity.increaseAge

/-- The first loop of `GameSimulation::reproduction`: `newAnimals`; the animals
themselves are not changed by the `const` function `reproduce`. -/
def reproductionLoop : List Entity → List Entity
  | [] => []
  | animal :: rest =>
    if animal.canReproduce then animal.reproduce :: reproductionLoop rest
    else reproductionLoop rest

/-- The function `GameSimulation::reproduction`: the second loop appends `newAnimals`. -/
def reproduction (animals : List Entity) : List Entity :=
  animals ++ reproductionLoop animals

/-- The function `GameSimulation::extinction`. -/
def extinction (animals : List Entity) : List Entity :=
  animals.filter (fun animal => !animal.isDead)

/-- The function `GameSimulation::simulateStep` of `src/main_a2.cpp`. -/
def simulateStep (width height : Int) (animals : List Entity) : List Entity :=
  extinction (reproduction (aging (processPredation (moveAnimals width height animals))))

/-- The loop of `main` that calls `simulateStep` `steps` times. -/
def simulate (width height : Int) : Nat → List Entity → List Entity
  | 0, animals => animals
  | steps + 1, animals => simulateStep width height (simulate width height steps animals)

end A2

/-- The same animal as an object of `src/main_a2.cpp`: every member but `reproduced`,
which that variant does not have. -/
def Entity.toA2 : Entity → A2.Entity
  | .prey p => .prey p
  | .predator p => .predator { toAnimal := p.toAnimal, preyEaten := p.preyEaten }

/-- An object of `src/main_a2.cpp` as an object of `src/main.cpp` with no reproduction
behind it (`reproduced = 1`). -/
def mainOfA2 : A2.Entity → Entity
  | .prey p => .prey p
  | .predator p => .predator { toAnimal := p.toAnimal, preyEaten := p.preyEaten, reproduced := 1 }

/-- A predator has no reproduction behind it (`reproduced = 1`); a prey has no such
counter. -/
def Entity.noPriorReproduction : Entity → Bool
  | .prey _ => true
  | .predator p => decide (p.reproduced = 1)

/-- A population as `main` builds it on a 4x4 grid from the input
`2 1  0 1 2 1  0 3 0 1  0 0 2 1`: after the first movement both prey and the predator
stand on (0,2). -/
def twoPreyOneHunter : List Entity :=
  [Entity.prey (Prey.new 0 1 .DOWN 1), Entity.prey (Prey.new 0 3 .UP 1),
   Entity.predator (Predator.new 0 0 .DOWN 1)]

/-- The predation phase of step `i + 1` does not remove the animal that started as `e0`:
if the animal, in its state after `i` steps, is in the population when the step starts,
then its moved state, credited with `eats i` prey, is in the population that the
predation phase of the step returns. -/
def sparedByPredation (width height : Int) (pop : List Entity) (eats : Nat → Nat)
    (e0 : Entity) (i : Nat) : Prop :=
  e0.life width height eats i ∈ simulate width height i pop →
    ((e0.life width height eats i).move width height).eatTimes (eats i) ∈
      processPredation (moveAnimals width height (simulate width height i pop))

/-- The number of new animals that the reproduction phases of its first `n` steps create
for the animal that started as `e0`, when step `i + 1` credits it with `eats i` prey:
in each step, what the first loop of `reproduction` adds to `newAnimals` for the animal
in the state in which the loop finds it. -/
def Entity.spawned (width height : Int) (eats : Nat → Nat) : Nat → Entity → Nat
  | 0, _ => 0
  | n + 1, e0 => Entity.spawned width height eats n e0 +
      (reproductionLoop
        [(((e0.life width height eats n).move width height).eatTimes (eats n)).increaseAge]).2.length

/-! # Proofs -/

/-! ## The marking pass of `processPredation` -/

theorem Entity.isPredator_eat (e : Entity) : e.eat.isPredator = e.isPredator := by
  cases e <;> rfl

theorem Entity.getX_eat (e : Entity) : e.eat.getX = e.getX := by
  cases e <;> rfl

theorem Entity.getY_eat (e : Entity) : e.eat.getY = e.getY := by
  cases e <;> rfl

theorem Entity.isPredator_eatTimes (n : Nat) (e : Entity) :
    (e.eatTimes n).isPredator = e.isPredator := by
  induction n with
  | zero => rfl
  | succ n ih => simp [Entity.eatTimes, Entity.isPredator_eat, ih]

theorem Entity.getX_eatTimes (n : Nat) (e : Entity) : (e.eatTimes n).getX = e.getX := by
  induction n with
  | zero => rfl
  | succ n ih => simp [Entity.eatTimes, Entity.getX_eat, ih]

theorem Entity.getY_eatTimes (n : Nat) (e : Entity) : (e.eatTimes n).getY = e.getY := by
  induction n with
  | zero => rfl
  | succ n ih => simp [Entity.eatTimes, Entity.getY_eat, ih]

theorem Entity.catches_eatTimes_left (n : Nat) (e v : Entity) :
    (e.eatTimes n).catches v = e.catches v := by
  simp [Entity.catches, Entity.getX_eatTimes, Entity.getY_eatTimes]

theorem Entity.catches_eatTimes_right (n : Nat) (e v : Entity) :
    e.catches (v.eatTimes n) = e.catches v := by
  simp [Entity.catches, Entity.getX_eatTimes, Entity.getY_eatTimes, Entity.isPredator_eatTimes]

theorem markInnerStep_eq (l : List Entity) (i : Nat) (P : Entity) (hP : l[i]? = some P)
    (hpred : P.isPredator = true) (m : Nat) (r : List Nat) (j : Nat) :
    markInnerStep i (l.set i (P.eatTimes m), r) j =
      if caught l P j then (l.set i (P.eatTimes (m + 1)), r ++ [j])
      else (l.set i (P.eatTimes m), r) := by
  have hi : i < l.length := by
    rcases Nat.lt_or_ge i l.length with h | h
    · exact h
    · rw [List.getElem?_eq_none h] at hP; cases hP
  unfold markInnerStep caught
  simp only [List.getElem?_set_self hi]
  by_cases hij : i = j
  · subst hij
    simp [List.getElem?_set_self hi, hP, Entity.isPredator_eatTimes, hpred, Entity.catches]
  · rw [List.getElem?_set_ne hij]
    cases hv : l[j]? with
    | none => simp
    | some v =>
      simp only [Entity.catches, Entity.getX_eatTimes, Entity.getY_eatTimes]
      by_cases hvp : v.isPredator = true
      · simp [hvp]
      · by_cases hc : P.getX = v.getX ∧ P.getY = v.getY
        · simp [hvp, hc, List.set_set, Entity.eatTimes]
        · simp [hvp, hc]

theorem markInner_fold (l : List Entity) (i : Nat) (P : Entity) (hP : l[i]? = some P)
    (hpred : P.isPredator = true) (js : List Nat) (m : Nat) (r : List Nat) :
    js.foldl (markInnerStep i) (l.set i (P.eatTimes m), r) =
      (l.set i (P.eatTimes (m + (js.filter (caught l P)).length)),
        r ++ js.filter (caught l P)) := by
  induction js generalizing m r with
  | nil => simp
  | cons j js ih =>
    rw [List.foldl_cons, markInnerStep_eq l i P hP hpred]
    by_cases hc : caught l P j = true
    · simp only [hc, if_true, ih, List.filter_cons_of_pos, List.length_cons]
      simp [Nat.add_assoc, Nat.add_comm 1]
    · simp only [hc, ih]
      simp [hc, ih]

theorem set_of_getElem? {α : Type} (l : List α) (i : Nat) (a : α) (h : l[i]? = some a) :
    l.set i a = l := by
  apply List.ext_getElem?
  intro n
  rw [List.getElem?_set]
  by_cases hin : i = n
  · subst hin
    have hi : i < l.length := by
      rcases Nat.lt_or_ge i l.length with h1 | h1
      · exact h1
      · rw [List.getElem?_eq_none h1] at h; cases h
    simp [hi, h]
  · simp [hin]

theorem markOuterStep_eq (l : List Entity) (r : List Nat) (i : Nat) :
    markOuterStep (l, r) i = (creditAt l i, r ++ hitsOf l i) := by
  unfold markOuterStep creditAt hitsOf
  cases hP : l[i]? with
  | none => simp
  | some P =>
    by_cases hpred : P.isPredator = true
    · have h := markInner_fold l i P hP hpred (List.range l.length) 0 r
      simp only [Entity.eatTimes, Nat.zero_add, set_of_getElem? l i P hP] at h
      simp [hpred, h]
    · simp [hpred, Entity.eatTimes, set_of_getElem? l i P hP]

theorem cellOf_eatTimes (n : Nat) (e : Entity) : cellOf (e.eatTimes n) = cellOf e := by
  simp [cellOf, Entity.isPredator_eatTimes, Entity.getX_eatTimes, Entity.getY_eatTimes]

theorem catches_congr {p p2 v v2 : Entity} (hp : cellOf p = cellOf p2)
    (hv : cellOf v = cellOf v2) : p.catches v = p2.catches v2 := by
  simp only [cellOf, Prod.mk.injEq] at hp hv
  simp [Entity.catches, hp.2.1, hp.2.2, hv.1, hv.2.1, hv.2.2]

theorem caught_congr {l l2 : List Entity} (h : ∀ j : Nat, (l[j]?).map cellOf = (l2[j]?).map cellOf)
    {p p2 : Entity} (hp : cellOf p = cellOf p2) (j : Nat) : caught l p j = caught l2 p2 j := by
  have hj := h j
  unfold caught
  cases h1 : l[j]? with
  | none =>
    cases h2 : l2[j]? with
    | none => rfl
    | some v2 => rw [h1, h2] at hj; cases hj
  | some v =>
    cases h2 : l2[j]? with
    | none => rw [h1, h2] at hj; cases hj
    | some v2 =>
      rw [h1, h2] at hj
      simp only [Option.map_some', Option.some.injEq] at hj
      exact catches_congr hp hj

theorem hitsOf_congr {l l2 : List Entity} (hlen : l.length = l2.length)
    (h : ∀ j : Nat, (l[j]?).map cellOf = (l2[j]?).map cellOf) (i : Nat) :
    hitsOf l i = hitsOf l2 i := by
  have hi := h i
  unfold hitsOf
  cases h1 : l[i]? with
  | none =>
    cases h2 : l2[i]? with
    | none => rfl
    | some v2 => rw [h1, h2] at hi; cases hi
  | some p =>
    cases h2 : l2[i]? with
    | none => rw [h1, h2] at hi; cases hi
    | some p2 =>
      rw [h1, h2] at hi
      simp only [Option.map_some', Option.some.injEq] at hi
      have hpp : p.isPredator = p2.isPredator := by
        simp only [cellOf, Prod.mk.injEq] at hi
        exact hi.1
      simp only [hpp, hlen]
      split
      · exact List.filter_congr (fun j _ => caught_congr h hi j)
      · rfl

theorem markOuter_fold (animals : List Entity) (m : Nat) :
    ((List.range m).foldl markOuterStep (animals, [])).2 = (List.range m).flatMap (hitsOf animals) ∧
    ((List.range m).foldl markOuterStep (animals, [])).1.length = animals.length ∧
    ∀ i : Nat, ((List.range m).foldl markOuterStep (animals, [])).1[i]? =
      if i < m then (animals[i]?).map (fun e => e.eatTimes (hitsOf animals i).length)
      else animals[i]? := by
  induction m with
  | zero => simp
  | succ m ih =>
    obtain ⟨ih2, ihlen, ihget⟩ := ih
    rw [List.range_succ, List.foldl_append, List.foldl_cons, List.foldl_nil]
    generalize (List.range m).foldl markOuterStep (animals, []) = s at ih2 ihlen ihget
    obtain ⟨l, r⟩ := s
    simp only at ih2 ihlen ihget
    rw [markOuterStep_eq]
    have hcell : ∀ j : Nat, (l[j]?).map cellOf = (animals[j]?).map cellOf := by
      intro j
      rw [ihget j]
      split
      · cases animals[j]? <;> simp [cellOf_eatTimes]
      · rfl
    have hhits : hitsOf l m = hitsOf animals m := hitsOf_congr ihlen hcell m
    have hlm : l[m]? = animals[m]? := by simpa using ihget m
    refine ⟨?_, ?_, ?_⟩
    · simp [ih2, hhits, List.flatMap_append]
    · unfold creditAt
      cases l[m]? <;> simp [ihlen]
    · intro i
      unfold creditAt
      rw [hhits]
      cases hm : l[m]? with
      | none =>
        simp only
        rw [ihget i]
        by_cases him : i = m
        · subst him; rw [← hlm, hm]; simp
        · by_cases h1 : i < m
          · have h2 : i < m + 1 := by omega
            simp [h1, h2]
          · have h2 : ¬ i < m + 1 := by omega
            simp [h1, h2]
      | some e =>
        simp only
        rw [List.getElem?_set]
        by_cases him : m = i
        · subst him
          have hml : m < l.length := by
            rcases Nat.lt_or_ge m l.length with h1 | h1
            · exact h1
            · rw [List.getElem?_eq_none h1] at hm; cases hm
          rw [← hlm, hm]
          simp [hml]
        · rw [if_neg him, ihget i]
          by_cases h1 : i < m
          · have h2 : i < m + 1 := by omega
            simp [h1, h2]
          · have h2 : ¬ i < m + 1 := by omega
            simp [h1, h2]

theorem markVictims_snd (animals : List Entity) :
    (markVictims animals).2 = (List.range animals.length).flatMap (hitsOf animals) :=
  (markOuter_fold animals animals.length).1

theorem markVictims_length (animals : List Entity) :
    (markVictims animals).1.length = animals.length :=
  (markOuter_fold animals animals.length).2.1

theorem markVictims_getElem? (animals : List Entity) (i : Nat) :
    (markVictims animals).1[i]? =
      (animals[i]?).map (fun e => e.eatTimes (hitsOf animals i).length) := by
  have h := (markOuter_fold animals animals.length).2.2 i
  unfold markVictims
  rw [h]
  by_cases hi : i < animals.length
  · simp [hi]
  · simp [hi, List.getElem?_eq_none (Nat.le_of_not_lt hi)]

theorem length_filter_caught (l : List Entity) (P : Entity) :
    ((List.range l.length).filter (caught l P)).length = l.countP (fun v => P.catches v) := by
  induction l using List.reverseRecOn with
  | nil => simp
  | append_singleton l a ih =>
    rw [List.length_append, List.length_singleton, List.range_succ, List.filter_append,
      List.length_append, List.countP_append]
    have h1 : (List.range l.length).filter (caught (l ++ [a]) P) =
        (List.range l.length).filter (caught l P) := by
      apply List.filter_congr
      intro j hj
      rw [List.mem_range] at hj
      simp [caught, List.getElem?_append_left hj]
    have h2 : caught (l ++ [a]) P l.length = P.catches a := by
      simp [caught]
    rw [h1, ih]
    by_cases hc : P.catches a = true
    · simp [List.filter_cons, h2, hc]
    · simp [List.filter_cons, h2, hc]

theorem Entity.eatTimes_prey (n : Nat) (q : Prey) :
    (Entity.prey q).eatTimes n = Entity.prey q := by
  induction n with
  | zero => rfl
  | succ n ih => simp [Entity.eatTimes, ih, Entity.eat]

theorem Entity.eatTimes_predator (n : Nat) (p : Predator) :
    (Entity.predator p).eatTimes n =
      Entity.predator { p with preyEaten := p.preyEaten + (n : Int) } := by
  induction n with
  | zero => simp [Entity.eatTimes]
  | succ n ih =>
    simp only [Entity.eatTimes, ih, Entity.eat, Predator.eat]
    congr 2
    push_cast
    ring

theorem hitsOf_length_predator (animals : List Entity) (i : Nat) (p : Predator)
    (h : animals[i]? = some (Entity.predator p)) :
    (hitsOf animals i).length = animals.countP (fun v => (Entity.predator p).catches v) := by
  unfold hitsOf
  rw [h]
  simp only [Entity.isPredator, if_true]
  exact length_filter_caught animals _

theorem hitsOf_prey (animals : List Entity) (i : Nat) (q : Prey)
    (h : animals[i]? = some (Entity.prey q)) : hitsOf animals i = [] := by
  unfold hitsOf
  rw [h]
  simp [Entity.isPredator]

/-- Claim C3: the marking pass of `processPredation` keeps every animal at its index; a
predator `p` comes out with `preyEaten` increased by exactly the number of prey of the
population that stand on the cell of `p` (so by 0 when there is none and by 2 when there
are two), all its other fields unchanged; a prey comes out unchanged. -/
theorem markVictims_credits (animals : List Entity) (i : Nat) :
    (markVictims animals).1.length = animals.length ∧
    (∀ p : Predator, animals[i]? = some (Entity.predator p) →
      (markVictims animals).1[i]? = some (Entity.predator { p with
        preyEaten := p.preyEaten +
          ((animals.countP (fun v => !v.isPredator && decide (v.getX = p.posX ∧ v.getY = p.posY)) : Nat) : Int) })) ∧
    (∀ q : Prey, animals[i]? = some (Entity.prey q) →
      (markVictims animals).1[i]? = some (Entity.prey q)) := by
  refine ⟨markVictims_length animals, ?_, ?_⟩
  · intro p hp
    rw [markVictims_getElem?, hp, Option.map_some', hitsOf_length_predator animals i p hp,
      Entity.eatTimes_predator]
    have : (fun v => (Entity.predator p).catches v) =
        (fun v : Entity => !v.isPredator && decide (v.getX = p.posX ∧ v.getY = p.posY)) := by
      funext v
      simp only [Entity.catches, Entity.getX, Entity.getY, Entity.toAnimal]
      congr 1
      simp only [decide_eq_decide]
      constructor
      · rintro ⟨h1, h2⟩; exact ⟨h1.symm, h2.symm⟩
      · rintro ⟨h1, h2⟩; exact ⟨h1.symm, h2.symm⟩
    rw [this]
  · intro q hq
    rw [markVictims_getElem?, hq, Option.map_some', Entity.eatTimes_prey]

theorem removeVictims_cons {α : Type} (l : List α) (i : Nat) (rest : List Nat) :
    removeVictims l (i :: rest) = removeVictims (l.eraseIdx i) rest := rfl

theorem removeVictims_sublist {α : Type} (l : List α) (idxs : List Nat) :
    (removeVictims l idxs).Sublist l := by
  induction idxs generalizing l with
  | nil => exact List.Sublist.refl l
  | cons i rest ih =>
    rw [removeVictims_cons]
    exact (ih _).trans (List.eraseIdx_sublist l i)

theorem removeVictims_good_aux {α : Type} (good : α → Prop) (l : List α) :
    ∀ (idxs : List Nat) (b : Nat) (T : List α),
      idxs.Pairwise (fun a b => a ≥ b) → (∀ j ∈ idxs, j ≤ b) → (∀ x ∈ T, good x) →
      (∀ (j : Nat) (a : α), l[j]? = some a → j < b → ¬ good a → j ∈ idxs) →
      ∀ x ∈ removeVictims (l.take b ++ T) idxs, good x := by
  intro idxs
  induction idxs with
  | nil =>
    intro b T _ _ hT hcov x hx
    simp only [removeVictims, List.foldl_nil, List.mem_append] at hx
    rcases hx with hx | hx
    · by_contra hg
      obtain ⟨j, hj⟩ := List.mem_iff_getElem?.1 hx
      rw [List.getElem?_take] at hj
      by_cases hjb : j < b
      · rw [if_pos hjb] at hj
        exact absurd (hcov j x hj hjb hg) (List.not_mem_nil j)
      · rw [if_neg hjb] at hj; cases hj
    · exact hT x hx
  | cons i rest ih =>
    intro b T hs hle hT hcov x hx
    rw [removeVictims_cons] at hx
    rw [List.pairwise_cons] at hs
    obtain ⟨hi_ge, hs_rest⟩ := hs
    have hib : i ≤ b := hle i (List.mem_cons_self i rest)
    by_cases hlt : i < (l.take b).length
    · rw [List.eraseIdx_append_of_lt_length hlt, List.eraseIdx_eq_take_drop_succ,
        List.take_take, Nat.min_eq_left hib, List.append_assoc] at hx
      refine ih i (List.drop (i + 1) (List.take b l) ++ T) hs_rest (fun j hj => hi_ge j hj)
        ?_ ?_ x hx
      · intro y hy
        rw [List.mem_append] at hy
        rcases hy with hy | hy
        · by_contra hg
          obtain ⟨j, hj⟩ := List.mem_iff_getElem?.1 hy
          rw [List.getElem?_drop, List.getElem?_take] at hj
          by_cases hjb : i + 1 + j < b
          · rw [if_pos hjb] at hj
            have hmem := hcov (i + 1 + j) y hj hjb hg
            rcases List.mem_cons.1 hmem with h1 | h1
            · omega
            · have := hi_ge _ h1
              omega
          · rw [if_neg hjb] at hj; cases hj
        · exact hT y hy
      · intro j a hja hji hg
        have hmem := hcov j a hja (by omega) hg
        rcases List.mem_cons.1 hmem with h1 | h1
        · omega
        · exact h1
    · have hge : (l.take b).length ≤ i := Nat.le_of_not_lt hlt
      rw [List.eraseIdx_append_of_length_le hge] at hx
      refine ih b (T.eraseIdx (i - (l.take b).length)) hs_rest
        (fun j hj => Nat.le_trans (hi_ge j hj) hib) ?_ ?_ x hx
      · intro y hy
        exact hT y (List.mem_of_mem_eraseIdx hy)
      · intro j a hja hjb hg
        have hmem := hcov j a hja hjb hg
        rcases List.mem_cons.1 hmem with h1 | h1
        · exfalso
          have hjl : j < l.length := by
            rcases Nat.lt_or_ge j l.length with h2 | h2
            · exact h2
            · rw [List.getElem?_eq_none h2] at hja; cases hja
          rw [List.length_take] at hge
          omega
        · exact h1

theorem removeVictims_good {α : Type} (good : α → Prop) (l : List α) (idxs : List Nat)
    (hs : idxs.Pairwise (fun a b => a ≥ b)) (hlt : ∀ j ∈ idxs, j < l.length)
    (hcov : ∀ (j : Nat) (a : α), l[j]? = some a → ¬ good a → j ∈ idxs) :
    ∀ x ∈ removeVictims l idxs, good x := by
  have h := removeVictims_good_aux good l idxs l.length [] hs
    (fun j hj => Nat.le_of_lt (hlt j hj)) (fun x hx => absurd hx (List.not_mem_nil x))
    (fun j a hja _ hg => hcov j a hja hg)
  simpa using h

theorem sortGreater_pairwise (idxs : List Nat) :
    (sortGreater idxs).Pairwise (fun a b => a ≥ b) := by
  have h := List.sorted_insertionSort (fun a b : Nat => a ≥ b) idxs
  exact h

theorem mem_sortGreater (idxs : List Nat) (j : Nat) : j ∈ sortGreater idxs ↔ j ∈ idxs :=
  List.mem_insertionSort _

theorem mem_hitsOf (animals : List Entity) (i j : Nat) :
    j ∈ hitsOf animals i ↔
      ∃ p v, animals[i]? = some p ∧ p.isPredator = true ∧ animals[j]? = some v ∧
        p.catches v = true := by
  unfold hitsOf
  cases hp : animals[i]? with
  | none => simp
  | some p =>
    by_cases hpred : p.isPredator = true
    · simp only [hpred, if_true, List.mem_filter, List.mem_range, caught, Option.some.injEq,
        exists_and_left, exists_eq_left', true_and]
      constructor
      · rintro ⟨_, h⟩
        cases hv : animals[j]? with
        | none => rw [hv] at h; cases h
        | some v => rw [hv] at h; exact ⟨v, rfl, h⟩
      · rintro ⟨v, hv, h⟩
        refine ⟨?_, by rw [hv]; exact h⟩
        rcases Nat.lt_or_ge j animals.length with h2 | h2
        · exact h2
        · rw [List.getElem?_eq_none h2] at hv; cases hv
    · simp [hpred]

theorem mem_markVictims_snd (animals : List Entity) (j : Nat) :
    j ∈ (markVictims animals).2 ↔
      ∃ (i : Nat) (p v : Entity), animals[i]? = some p ∧ p.isPredator = true ∧ animals[j]? = some v ∧
        p.catches v = true := by
  rw [markVictims_snd, List.mem_flatMap]
  constructor
  · rintro ⟨i, _, h⟩
    exact ⟨i, (mem_hitsOf animals i j).1 h⟩
  · rintro ⟨i, p, v, hp, h⟩
    refine ⟨i, ?_, (mem_hitsOf animals i j).2 ⟨p, v, hp, h⟩⟩
    rw [List.mem_range]
    rcases Nat.lt_or_ge i animals.length with h2 | h2
    · exact h2
    · rw [List.getElem?_eq_none h2] at hp; cases hp

theorem markVictims_snd_lt (animals : List Entity) (j : Nat)
    (h : j ∈ (markVictims animals).2) : j < (markVictims animals).1.length := by
  obtain ⟨i, p, v, _, _, hv, _⟩ := (mem_markVictims_snd animals j).1 h
  rw [markVictims_length]
  rcases Nat.lt_or_ge j animals.length with h2 | h2
  · exact h2
  · rw [List.getElem?_eq_none h2] at hv; cases hv

/-- No animal left by the removal loop is caught by a predator of the population the
predation phase started from. -/
theorem processPredation_no_victim (animals : List Entity) :
    ∀ v ∈ processPredation animals, ∀ p ∈ animals, p.isPredator = true → p.catches v = false :=
  removeVictims_good
    (fun v : Entity => ∀ p ∈ animals, p.isPredator = true → p.catches v = false)
    (markVictims animals).1 (sortGreater (markVictims animals).2)
    (sortGreater_pairwise _)
    (fun j hj => markVictims_snd_lt animals j ((mem_sortGreater _ j).1 hj))
    (by
      intro j a hja hg
      rw [mem_sortGreater, mem_markVictims_snd]
      simp only [not_forall] at hg
      obtain ⟨p, hp, hpred, hc⟩ := hg
      obtain ⟨i, hi⟩ := List.mem_iff_getElem?.1 hp
      rw [markVictims_getElem?] at hja
      cases hv : animals[j]? with
      | none => rw [hv] at hja; cases hja
      | some v =>
        rw [hv, Option.map_some', Option.some.injEq] at hja
        refine ⟨i, p, v, hi, hpred, rfl, ?_⟩
        rw [← hja, Entity.catches_eatTimes_right] at hc
        simpa using hc)

/-- Under the convention of `removeVictims`, no prey that is left after `processPredation`
stands on the cell of a predator of the population the phase started from. -/
theorem processPredation_no_prey_on_predator_cell (animals : List Entity) :
    ∀ v ∈ processPredation animals, ∀ p ∈ animals,
      p.isPredator = true → v.isPredator = false → ¬ (p.getX = v.getX ∧ p.getY = v.getY) := by
  intro v hv p hp hpred hprey hcell
  have h := processPredation_no_victim animals v hv p hp hpred
  simp [Entity.catches, hprey, hcell] at h

/-! ## Movement -/

theorem Animal.turn_posX (a : Animal) : a.turn.posX = a.posX := by
  unfold Animal.turn; simp only; split <;> rfl

theorem Animal.turn_posY (a : Animal) : a.turn.posY = a.posY := by
  unfold Animal.turn; simp only; split <;> rfl

theorem Animal.moveOnce_direction (w h : Int) (a : Animal) :
    (a.moveOnce w h).direction = a.direction := by
  unfold Animal.moveOnce; split <;> rfl

theorem Animal.moveOnce_turnPeriod (w h : Int) (a : Animal) :
    (a.moveOnce w h).turnPeriod = a.turnPeriod := by
  unfold Animal.moveOnce; split <;> rfl

theorem Animal.moveOnce_turnCounter (w h : Int) (a : Animal) :
    (a.moveOnce w h).turnCounter = a.turnCounter := by
  unfold Animal.moveOnce; split <;> rfl

theorem Animal.moveOnce_moveSteps (w h : Int) (a : Animal) :
    (a.moveOnce w h).moveSteps = a.moveSteps := by
  unfold Animal.moveOnce; split <;> rfl

theorem Animal.moveOnce_age (w h : Int) (a : Animal) :
    (a.moveOnce w h).age = a.age := by
  unfold Animal.moveOnce; split <;> rfl

theorem Animal.moveLoop_frame (w h : Int) (n : Nat) (a : Animal) :
    (Animal.moveLoop w h n a).direction = a.direction ∧
    (Animal.moveLoop w h n a).turnPeriod = a.turnPeriod ∧
    (Animal.moveLoop w h n a).turnCounter = a.turnCounter ∧
    (Animal.moveLoop w h n a).moveSteps = a.moveSteps ∧
    (Animal.moveLoop w h n a).age = a.age := by
  induction n generalizing a with
  | zero => simp [Animal.moveLoop]
  | succ n ih =>
    simp only [Animal.moveLoop]
    obtain ⟨h1, h2, h3, h4, h5⟩ := ih (a.moveOnce w h)
    rw [h1, h2, h3, h4, h5]
    exact ⟨Animal.moveOnce_direction w h a, Animal.moveOnce_turnPeriod w h a,
      Animal.moveOnce_turnCounter w h a, Animal.moveOnce_moveSteps w h a,
      Animal.moveOnce_age w h a⟩

theorem wrap_inc (x w : Int) (hx : 0 ≤ x) (hw : 1 ≤ w) : (x + 1).tmod w = (x + 1) % w :=
  Int.tmod_eq_emod (by omega) (by omega)

theorem wrap_dec (x w : Int) (hx : 0 ≤ x) (hw : 1 ≤ w) : (x - 1 + w).tmod w = (x - 1) % w := by
  rw [Int.tmod_eq_emod (by omega) (by omega), Int.add_emod_self]

/-- One unit step from an in-bounds cell. -/
theorem Animal.moveOnce_pos (w h : Int) (hw : 1 ≤ w) (hh : 1 ≤ h) (a : Animal)
    (hx : 0 ≤ a.posX ∧ a.posX < w) (hy : 0 ≤ a.posY ∧ a.posY < h) :
    (a.moveOnce w h).posX = (a.posX + a.direction.dx) % w ∧
    (a.moveOnce w h).posY = (a.posY + a.direction.dy) % h := by
  unfold Animal.moveOnce
  cases hd : a.direction
  · simp only [Direction.dx, Direction.dy, add_zero]
    exact ⟨(Int.emod_eq_of_lt hx.1 hx.2).symm, wrap_dec _ _ hy.1 hh⟩
  · simp only [Direction.dx, Direction.dy, add_zero]
    exact ⟨wrap_inc _ _ hx.1 hw, (Int.emod_eq_of_lt hy.1 hy.2).symm⟩
  · simp only [Direction.dx, Direction.dy, add_zero]
    exact ⟨(Int.emod_eq_of_lt hx.1 hx.2).symm, wrap_inc _ _ hy.1 hh⟩
  · simp only [Direction.dx, Direction.dy, add_zero]
    exact ⟨wrap_dec _ _ hx.1 hw, (Int.emod_eq_of_lt hy.1 hy.2).symm⟩

theorem Animal.moveLoop_pos (w h : Int) (hw : 1 ≤ w) (hh : 1 ≤ h) (n : Nat) (a : Animal)
    (hx : 0 ≤ a.posX ∧ a.posX < w) (hy : 0 ≤ a.posY ∧ a.posY < h) :
    (Animal.moveLoop w h n a).posX = (a.posX + (n : Int) * a.direction.dx) % w ∧
    (Animal.moveLoop w h n a).posY = (a.posY + (n : Int) * a.direction.dy) % h := by
  induction n generalizing a with
  | zero =>
    simp only [Animal.moveLoop, Nat.cast_zero, zero_mul, add_zero]
    exact ⟨(Int.emod_eq_of_lt hx.1 hx.2).symm, (Int.emod_eq_of_lt hy.1 hy.2).symm⟩
  | succ n ih =>
    obtain ⟨h1, h2⟩ := Animal.moveOnce_pos w h hw hh a hx hy
    have hx1 : 0 ≤ (a.moveOnce w h).posX ∧ (a.moveOnce w h).posX < w := by
      rw [h1]; exact ⟨Int.emod_nonneg _ (by omega), Int.emod_lt_of_pos _ (by omega)⟩
    have hy1 : 0 ≤ (a.moveOnce w h).posY ∧ (a.moveOnce w h).posY < h := by
      rw [h2]; exact ⟨Int.emod_nonneg _ (by omega), Int.emod_lt_of_pos _ (by omega)⟩
    obtain ⟨i1, i2⟩ := ih (a.moveOnce w h) hx1 hy1
    simp only [Animal.moveLoop]
    rw [i1, i2, h1, h2, Animal.moveOnce_direction, Int.emod_add_emod, Int.emod_add_emod]
    push_cast
    constructor
    · congr 1; ring
    · congr 1; ring

theorem Entity.move_toAnimal (w h : Int) (e : Entity) :
    (e.move w h).toAnimal = e.toAnimal.move w h := by
  cases e <;> rfl

theorem Entity.move_isPredator (w h : Int) (e : Entity) :
    (e.move w h).isPredator = e.isPredator := by
  cases e <;> rfl

theorem Direction.ofInt_succ (d : Direction) :
    Direction.ofInt ((d.toInt + 1).tmod 4) = d.successor := by
  cases d <;> decide

theorem Animal.move_turnPeriod (w h : Int) (a : Animal) :
    (a.move w h).turnPeriod = a.turnPeriod := by
  unfold Animal.move Animal.turn
  simp only
  split <;> exact (Animal.moveLoop_frame w h _ a).2.1

theorem Animal.move_turn_fields (w h : Int) (a : Animal) :
    (a.move w h).turnCounter =
        (if a.turnCounter + 1 ≥ a.turnPeriod then 0 else a.turnCounter + 1) ∧
    (a.move w h).direction =
        (if a.turnCounter + 1 ≥ a.turnPeriod then a.direction.successor else a.direction) := by
  obtain ⟨h1, h2, h3, _, _⟩ := Animal.moveLoop_frame w h a.moveSteps.toNat a
  unfold Animal.move Animal.turn
  simp only [h1, h2, h3]
  split
  · simp [Direction.ofInt_succ]
  · simp [h1]

theorem succ_div_mod (n k : Nat) (hk : 1 ≤ k) :
    (n % k + 1 = k → (n + 1) % k = 0 ∧ (n + 1) / k = n / k + 1) ∧
    (n % k + 1 ≠ k → (n + 1) % k = n % k + 1 ∧ (n + 1) / k = n / k) := by
  have hlt : n % k < k := Nat.mod_lt n hk
  have hdm : k * (n / k) + n % k = n := Nat.div_add_mod n k
  constructor
  · intro h
    have e : n + 1 = (n / k + 1) * k := by
      rw [Nat.add_mul, Nat.one_mul, Nat.mul_comm]; omega
    rw [e]
    exact ⟨Nat.mul_mod_left _ _, Nat.mul_div_cancel _ hk⟩
  · intro h
    have hlt2 : n % k + 1 < k := by omega
    have e : n + 1 = (n % k + 1) + k * (n / k) := by omega
    rw [e]
    refine ⟨?_, ?_⟩
    · rw [Nat.add_mul_mod_self_left, Nat.mod_eq_of_lt hlt2]
    · rw [Nat.add_mul_div_left _ _ hk, Nat.div_eq_of_lt hlt2, Nat.zero_add]

/-- Claim C5: after `n` calls of `Animal::move` on an animal constructed with
`turnPeriod = k ≥ 1` and direction `d0`, the turn counter is `n mod k`, the direction is
`d0` advanced `n div k` times along UP, RIGHT, DOWN, LEFT, UP, and `turnPeriod` is still
`k`. -/
theorem move_turn_schedule (fieldWidth fieldHeight x y : Int) (d0 : Direction) (k : Nat)
    (hk : 1 ≤ k) (steps : Int) (n : Nat) :
    ((Animal.move fieldWidth fieldHeight)^[n] (Animal.new x y d0 k steps)).turnCounter
        = ((n % k : Nat) : Int) ∧
    ((Animal.move fieldWidth fieldHeight)^[n] (Animal.new x y d0 k steps)).direction
        = Direction.successor^[n / k] d0 ∧
    ((Animal.move fieldWidth fieldHeight)^[n] (Animal.new x y d0 k steps)).turnPeriod
        = (k : Int) := by
  induction n with
  | zero => simp [Animal.new]
  | succ n ih =>
    obtain ⟨ih1, ih2, ih3⟩ := ih
    rw [Function.iterate_succ_apply']
    generalize (Animal.move fieldWidth fieldHeight)^[n] (Animal.new x y d0 k steps) = a
      at ih1 ih2 ih3
    obtain ⟨h1, h2⟩ := Animal.move_turn_fields fieldWidth fieldHeight a
    rw [h1, h2, Animal.move_turnPeriod, ih1, ih2, ih3]
    have hlt : n % k < k := Nat.mod_lt n hk
    obtain ⟨hA, hB⟩ := succ_div_mod n k hk
    by_cases hc : n % k + 1 = k
    · obtain ⟨e1, e2⟩ := hA hc
      have hge : ((n % k : Nat) : Int) + 1 ≥ (k : Int) := by omega
      rw [if_pos hge, if_pos hge, e1, e2, Function.iterate_succ_apply']
      simp
    · obtain ⟨e1, e2⟩ := hB hc
      have hnge : ¬ (((n % k : Nat) : Int) + 1 ≥ (k : Int)) := by omega
      rw [if_neg hnge, if_neg hnge, e1, e2]
      simp

theorem move_turn_schedule_witness :
    ((Animal.move 4 4)^[1] (Animal.new 0 0 .UP 2 1)).direction = .UP ∧
    ((Animal.move 4 4)^[2] (Animal.new 0 0 .UP 2 1)).direction = .RIGHT :=
  ⟨(move_turn_schedule 4 4 0 0 .UP 2 (by decide) 1 1).2.1,
   (move_turn_schedule 4 4 0 0 .UP 2 (by decide) 1 2).2.1⟩

/-! ## The removal loop on a repeated index -/

/-- Claim C2, evaluated on the code where it fails: one prey on the cell of two predators
is pushed to `preyToRemove` twice, and the second `erase` at that index deletes the
animal that follows it. In `twoHuntersPopulation` the prey on (0,3), which shares its
cell with no predator, is deleted as well; in `twoHuntersOnePrey` a predator is
deleted. -/
theorem processPredation_erases_successor_of_shared_prey :
    (markVictims (moveAnimals 4 4 twoHuntersPopulation)).2 = [0, 0] ∧
    (moveAnimals 4 4 twoHuntersPopulation).map cellOf
      = [(false, 0, 2), (false, 0, 3), (true, 0, 2), (true, 0, 2)] ∧
    (processPredation (moveAnimals 4 4 twoHuntersPopulation)).map cellOf
      = [(true, 0, 2), (true, 0, 2)] ∧
    (moveAnimals 4 4 twoHuntersOnePrey).map cellOf
      = [(false, 0, 2), (true, 0, 2), (true, 0, 2)] ∧
    (processPredation (moveAnimals 4 4 twoHuntersOnePrey)).map cellOf
      = [(true, 0, 2)] := by
  decide

/-! ## Reproduction and extinction -/

theorem reproductionLoop_eq (animals : List Entity) :
    reproductionLoop animals =
      (animals.map Entity.afterReproduce,
        (animals.filter Entity.canReproduce).map (fun e => e.reproduce.2)) := by
  induction animals with
  | nil => rfl
  | cons a rest ih =>
    unfold reproductionLoop
    simp only [ih]
    by_cases hc : a.canReproduce = true
    · simp [hc, Entity.afterReproduce]
    · simp [hc, Entity.afterReproduce]

theorem reproduction_eq (animals : List Entity) :
    reproduction animals =
      animals.map Entity.afterReproduce ++
        (animals.filter Entity.canReproduce).map (fun e => e.reproduce.2) := by
  unfold reproduction
  rw [reproductionLoop_eq]

theorem Entity.afterReproduce_prey (q : Prey) :
    (Entity.prey q).afterReproduce = Entity.prey q := by
  unfold Entity.afterReproduce
  split <;> rfl

theorem Entity.afterReproduce_toAnimal (e : Entity) :
    e.afterReproduce.toAnimal = e.toAnimal := by
  unfold Entity.afterReproduce
  split
  · cases e <;> rfl
  · rfl

theorem Entity.afterReproduce_isPredator (e : Entity) :
    e.afterReproduce.isPredator = e.isPredator := by
  unfold Entity.afterReproduce
  split
  · cases e <;> rfl
  · rfl

theorem Entity.afterReproduce_consumed (e : Entity) :
    e.afterReproduce.consumed = e.consumed := by
  unfold Entity.afterReproduce
  split
  · cases e <;> rfl
  · rfl

theorem Entity.isDead_afterReproduce (e : Entity) :
    e.afterReproduce.isDead = e.isDead := by
  unfold Entity.afterReproduce
  split
  · cases e <;> rfl
  · rfl

theorem Entity.consumed_move (w h : Int) (e : Entity) : (e.move w h).consumed = e.consumed := by
  cases e <;> rfl

theorem Entity.consumed_increaseAge (e : Entity) : e.increaseAge.consumed = e.consumed := by
  cases e <;> rfl

theorem Entity.consumed_eat (e : Entity) : e.consumed ≤ e.eat.consumed := by
  cases e with
  | prey q => exact le_refl _
  | predator p =>
    simp only [Entity.eat, Entity.consumed, Predator.eat]
    omega

theorem Entity.consumed_eatTimes (n : Nat) (e : Entity) : e.consumed ≤ (e.eatTimes n).consumed := by
  induction n with
  | zero => exact le_refl _
  | succ n ih => exact le_trans ih (Entity.consumed_eat _)

theorem processPredation_sublist (animals : List Entity) :
    (processPredation animals).Sublist (markVictims animals).1 :=
  removeVictims_sublist _ _

/-- Claim C7: in `src/main.cpp` a predator with consumed count `c = preyEaten` and
`r = reproduced - 1` reproductions behind it (0 for a new predator) can reproduce exactly
when `c ≥ 2 * (1 + r)`; `reproduce` raises `r` by 1 and leaves `c` as it is; and no phase
of a step lowers a consumed count: movement, aging and the first loop of reproduction keep
the count of the animal at every index, the marking pass keeps every animal at its index
with a count at least as large, and the removal loop and extinction only delete animals. -/
theorem predator_reproduction_threshold (p : Predator) (width height : Int)
    (animals : List Entity) (x y : Int) (d : Direction) (k : Int) :
    (Predator.new x y d k).priorReproductions = 0 ∧
    (p.canReproduce = true ↔ p.preyEaten ≥ 2 * (1 + p.priorReproductions)) ∧
    p.reproduce.1.priorReproductions = p.priorReproductions + 1 ∧
    p.reproduce.1.preyEaten = p.preyEaten ∧
    (moveAnimals width height animals).map Entity.consumed = animals.map Entity.consumed ∧
    (markVictims animals).1.length = animals.length ∧
    (∀ (i : Nat) (e : Entity), animals[i]? = some e →
      ∃ e2, (markVictims animals).1[i]? = some e2 ∧ e.consumed ≤ e2.consumed) ∧
    (processPredation animals).Sublist (markVictims animals).1 ∧
    (aging animals).map Entity.consumed = animals.map Entity.consumed ∧
    (reproductionLoop animals).1.map Entity.consumed = animals.map Entity.consumed ∧
    reproduction animals = (reproductionLoop animals).1 ++ (reproductionLoop animals).2 ∧
    (extinction animals).Sublist animals := by
  refine ⟨rfl, ?_, ?_, rfl, ?_, markVictims_length animals, ?_, processPredation_sublist animals,
    ?_, ?_, rfl, List.filter_sublist animals⟩
  · simp only [Predator.canReproduce, Predator.priorReproductions, decide_eq_true_eq]
    constructor <;> intro h <;> omega
  · simp only [Predator.reproduce, Predator.priorReproductions]
    omega
  · simp [moveAnimals, Entity.consumed_move]
  · intro i e he
    refine ⟨e.eatTimes (hitsOf animals i).length, ?_, Entity.consumed_eatTimes _ e⟩
    rw [markVictims_getElem?, he, Option.map_some']
  · simp [aging, Entity.consumed_increaseAge]
  · rw [reproductionLoop_eq]
    simp [Entity.afterReproduce_consumed]


/-- Claim C8: `reproduction` returns the animals of the input population in their
order, each one unchanged except that a predator that reproduced has `reproduced`
increased by 1, followed by exactly one new animal for each input animal whose
`canReproduce` holds, in the order of the parents; the new animals are produced from the
input animals only. A new animal has the species, position, direction and `turnPeriod`
of its parent, age 0, turn counter 0, and for a predator `preyEaten = 0` and no
reproduction behind it, for a prey both flags false. -/
theorem reproduction_appends_offspring (animals : List Entity) :
    reproduction animals =
      animals.map Entity.afterReproduce ++
        (animals.filter Entity.canReproduce).map (fun e => e.reproduce.2) ∧
    (reproduction animals).length = animals.length + animals.countP Entity.canReproduce ∧
    (∀ q : Prey, (Entity.prey q).afterReproduce = Entity.prey q) ∧
    (∀ p : Predator, (Entity.predator p).afterReproduce =
      if p.canReproduce then Entity.predator { p with reproduced := p.reproduced + 1 }
      else Entity.predator p) ∧
    (∀ q : Prey, (Entity.prey q).reproduce.2 = Entity.prey
      { posX := q.posX, posY := q.posY, direction := q.direction, turnPeriod := q.turnPeriod,
        age := 0, moveSteps := 1, turnCounter := 0,
        hasReproduced1 := false, hasReproduced2 := false }) ∧
    (∀ p : Predator, (Entity.predator p).reproduce.2 = Entity.predator
      { posX := p.posX, posY := p.posY, direction := p.direction, turnPeriod := p.turnPeriod,
        age := 0, moveSteps := 2, turnCounter := 0, preyEaten := 0, reproduced := 1 }) ∧
    (∀ p : Predator, p.reproduce.2.priorReproductions = 0) := by
  refine ⟨reproduction_eq animals, ?_, Entity.afterReproduce_prey, ?_, fun _ => rfl,
    fun _ => rfl, fun _ => rfl⟩
  · rw [reproduction_eq, List.length_append, List.length_map, List.length_map,
      List.countP_eq_length_filter]
  · intro p
    simp only [Entity.afterReproduce, Entity.canReproduce, Entity.reproduce, Predator.reproduce]

/-! ## One step -/

theorem mem_extinction (animals : List Entity) (e : Entity) :
    e ∈ extinction animals ↔ e ∈ animals ∧ e.isDead = false := by
  simp [extinction, List.mem_filter]

theorem mem_reproduction_of_mem (animals : List Entity) (e : Entity) (he : e ∈ animals) :
    e.afterReproduce ∈ reproduction animals := by
  rw [reproduction_eq]
  exact List.mem_append_left _ (List.mem_map_of_mem _ he)

theorem mem_aging_of_mem (animals : List Entity) (e : Entity) (he : e ∈ animals) :
    e.increaseAge ∈ aging animals :=
  List.mem_map_of_mem _ he

theorem prey_isDead_iff (q : Prey) : q.isDead = false ↔ q.age < 10 := by
  simp [Prey.isDead, Prey.MAX_AGE]

theorem predator_isDead_iff (p : Predator) : p.isDead = false ↔ p.age < 20 := by
  simp [Predator.isDead, Predator.MAX_AGE]

/-- Claim C10: for every population, no animal in the population after `simulateStep`
is dead: every prey in it has age below 10 and every predator age below 20; and every
animal that the reproduction phase of the step created is in it, with age 0. -/
theorem simulateStep_leaves_no_dead (width height : Int) (animals : List Entity) :
    (∀ e ∈ simulateStep width height animals, e.isDead = false) ∧
    (∀ q : Prey, Entity.prey q ∈ simulateStep width height animals → q.age < 10) ∧
    (∀ p : Predator, Entity.predator p ∈ simulateStep width height animals → p.age < 20) ∧
    (∀ c ∈ (reproductionLoop
        (aging (processPredation (moveAnimals width height animals)))).2,
      c ∈ simulateStep width height animals ∧ c.toAnimal.age = 0) := by
  have hall : ∀ e ∈ simulateStep width height animals, e.isDead = false :=
    fun e he => ((mem_extinction _ e).1 he).2
  refine ⟨hall, ?_, ?_, ?_⟩
  · intro q hq
    exact (prey_isDead_iff q).1 (hall _ hq)
  · intro p hp
    exact (predator_isDead_iff p).1 (hall _ hp)
  · intro c hc
    rw [reproductionLoop_eq] at hc
    simp only [List.mem_map, List.mem_filter] at hc
    obtain ⟨e, ⟨_, _⟩, rfl⟩ := hc
    have hage : e.reproduce.2.toAnimal.age = 0 := by cases e <;> rfl
    have hdead : e.reproduce.2.isDead = false := by cases e <;> rfl
    refine ⟨?_, hage⟩
    unfold simulateStep
    rw [mem_extinction]
    refine ⟨?_, hdead⟩
    rw [reproduction_eq]
    apply List.mem_append_right
    simp only [List.mem_map, List.mem_filter]
    exact ⟨e, ⟨by assumption, by assumption⟩, rfl⟩

/-! ## The life of one animal -/

theorem Animal.move_age (w h : Int) (a : Animal) : (a.move w h).age = a.age := by
  unfold Animal.move Animal.turn
  simp only
  split <;> exact (Animal.moveLoop_frame w h _ a).2.2.2.2

theorem Entity.eat_toAnimal (e : Entity) : e.eat.toAnimal = e.toAnimal := by
  cases e <;> rfl

theorem Entity.eatTimes_toAnimal (n : Nat) (e : Entity) :
    (e.eatTimes n).toAnimal = e.toAnimal := by
  induction n with
  | zero => rfl
  | succ n ih => simp [Entity.eatTimes, Entity.eat_toAnimal, ih]

theorem Entity.increaseAge_age (e : Entity) :
    e.increaseAge.toAnimal.age = e.toAnimal.age + 1 := by
  cases e <;> rfl

theorem Entity.increaseAge_isPredator (e : Entity) :
    e.increaseAge.isPredator = e.isPredator := by
  cases e <;> rfl

theorem Entity.lifeStep_age (w h : Int) (m : Nat) (e : Entity) :
    (e.lifeStep w h m).toAnimal.age = e.toAnimal.age + 1 := by
  unfold Entity.lifeStep
  rw [Entity.afterReproduce_toAnimal, Entity.increaseAge_age, Entity.eatTimes_toAnimal,
    Entity.move_toAnimal, Animal.move_age]

theorem Entity.lifeStep_isPredator (w h : Int) (m : Nat) (e : Entity) :
    (e.lifeStep w h m).isPredator = e.isPredator := by
  unfold Entity.lifeStep
  rw [Entity.afterReproduce_isPredator, Entity.increaseAge_isPredator,
    Entity.isPredator_eatTimes, Entity.move_isPredator]

theorem Entity.life_age (w h : Int) (eats : Nat → Nat) (n : Nat) (e : Entity) :
    (e.life w h eats n).toAnimal.age = e.toAnimal.age + (n : Int) := by
  induction n with
  | zero => simp [Entity.life]
  | succ n ih =>
    simp only [Entity.life, Entity.lifeStep_age, ih]
    push_cast
    ring

theorem Entity.life_isPredator (w h : Int) (eats : Nat → Nat) (n : Nat) (e : Entity) :
    (e.life w h eats n).isPredator = e.isPredator := by
  induction n with
  | zero => rfl
  | succ n ih => simp only [Entity.life, Entity.lifeStep_isPredator, ih]

theorem Entity.isDead_eq (e : Entity) :
    e.isDead = decide (e.toAnimal.age ≥ if e.isPredator then 20 else 10) := by
  cases e <;> rfl

/-- An animal that is in the population after the predation phase of a step is, in its
state after aging and reproduction, in the population before the extinction phase, and
in the population after the step unless it is dead. -/
theorem lifeStep_mem (w h : Int) (pop : List Entity) (e : Entity) (m : Nat)
    (he : (e.move w h).eatTimes m ∈ processPredation (moveAnimals w h pop)) :
    e.lifeStep w h m ∈ reproduction (aging (processPredation (moveAnimals w h pop))) ∧
    ((e.lifeStep w h m).isDead = false → e.lifeStep w h m ∈ simulateStep w h pop) := by
  have h1 := mem_reproduction_of_mem _ _ (mem_aging_of_mem _ _ he)
  refine ⟨h1, fun hd => ?_⟩
  unfold simulateStep
  rw [mem_extinction]
  exact ⟨h1, hd⟩

theorem life_lifespan (w h : Int) (pop : List Entity) (e0 : Entity) (eats : Nat → Nat)
    (m : Nat) (hM : ((m + 1 : Nat) : Int) = if e0.isPredator then 20 else 10)
    (hage0 : e0.toAnimal.age = 0) (h0 : e0 ∈ pop)
    (hsurv : ∀ i < m + 1, sparedByPredation w h pop eats e0 i) :
    (∀ n ≤ m, e0.life w h eats n ∈ simulate w h n pop ∧
      (e0.life w h eats n).toAnimal.age = (n : Int)) ∧
    (∀ i ≤ m, ((e0.life w h eats i).move w h).eatTimes (eats i) ∈
      processPredation (moveAnimals w h (simulate w h i pop))) ∧
    e0.life w h eats (m + 1) ∈
      reproduction (aging (processPredation (moveAnimals w h (simulate w h m pop)))) ∧
    (e0.life w h eats (m + 1)).toAnimal.age = ((m + 1 : Nat) : Int) ∧
    (e0.life w h eats (m + 1)).isDead = true ∧
    e0.life w h eats (m + 1) ∉ simulate w h (m + 1) pop := by
  have hage : ∀ n, (e0.life w h eats n).toAnimal.age = (n : Int) := by
    intro n
    rw [Entity.life_age, hage0, zero_add]
  have hdead : ∀ n, (e0.life w h eats n).isDead = decide (m + 1 ≤ n) := by
    intro n
    rw [Entity.isDead_eq, hage, Entity.life_isPredator, ← hM]
    simp only [ge_iff_le, Nat.cast_le]
  have hpresent : ∀ n ≤ m, e0.life w h eats n ∈ simulate w h n pop := by
    intro n
    induction n with
    | zero => intro _; exact h0
    | succ i ih =>
      intro hn
      have hs := hsurv i (by omega) (ih (by omega))
      have hd : (e0.life w h eats (i + 1)).isDead = false := by
        rw [hdead]
        simp only [decide_eq_false_iff_not]
        omega
      exact (lifeStep_mem w h _ _ _ hs).2 hd
  have hafter : ∀ i ≤ m, ((e0.life w h eats i).move w h).eatTimes (eats i) ∈
      processPredation (moveAnimals w h (simulate w h i pop)) :=
    fun i hi => hsurv i (by omega) (hpresent i hi)
  refine ⟨fun n hn => ⟨hpresent n hn, hage n⟩, hafter, ?_, hage _, ?_, ?_⟩
  · exact (lifeStep_mem w h _ _ _ (hafter m (le_refl m))).1
  · rw [hdead]
    simp
  · intro hmem
    have h1 : (e0.life w h eats (m + 1)).isDead = false :=
      ((mem_extinction _ _).1 hmem).2
    rw [hdead] at h1
    simp at h1

/-- Claim C9: take a prey built by the constructor, in a population, that no predation
phase removes: in each of the steps 1 to 10, if the prey is in the population when the
step starts, it is in the population that the predation phase of the step returns. Then
the prey is in the population with age `n` after `n` steps for every `n ≤ 9`; in its
10th step it reaches age 10, is still in the population when the extinction phase
starts, is dead, and is not in the population after the step. The same holds for a
predator built by the constructor, with 19 and 20 in place of 9 and 10, whatever number
`eats i` of prey the predation phase of step `i + 1` credits it with. -/
theorem lifespan_prey_ten_predator_twenty :
    (∀ (width height : Int) (pop : List Entity) (x y : Int) (d : Direction) (k : Int),
      Entity.prey (Prey.new x y d k) ∈ pop →
      (∀ i < 10, sparedByPredation width height pop (fun _ => 0)
        (Entity.prey (Prey.new x y d k)) i) →
      (∀ n ≤ 9,
        (Entity.prey (Prey.new x y d k)).life width height (fun _ => 0) n
          ∈ simulate width height n pop ∧
        ((Entity.prey (Prey.new x y d k)).life width height (fun _ => 0) n).toAnimal.age
          = (n : Int)) ∧
      (Entity.prey (Prey.new x y d k)).life width height (fun _ => 0) 10 ∈
        reproduction (aging (processPredation
          (moveAnimals width height (simulate width height 9 pop)))) ∧
      ((Entity.prey (Prey.new x y d k)).life width height (fun _ => 0) 10).toAnimal.age = 10 ∧
      ((Entity.prey (Prey.new x y d k)).life width height (fun _ => 0) 10).isDead = true ∧
      (Entity.prey (Prey.new x y d k)).life width height (fun _ => 0) 10
        ∉ simulate width height 10 pop) ∧
    (∀ (width height : Int) (pop : List Entity) (x y : Int) (d : Direction) (k : Int)
      (eats : Nat → Nat),
      Entity.predator (Predator.new x y d k) ∈ pop →
      (∀ i < 20, sparedByPredation width height pop eats
        (Entity.predator (Predator.new x y d k)) i) →
      (∀ n ≤ 19,
        (Entity.predator (Predator.new x y d k)).life width height eats n
          ∈ simulate width height n pop ∧
        ((Entity.predator (Predator.new x y d k)).life width height eats n).toAnimal.age
          = (n : Int)) ∧
      (Entity.predator (Predator.new x y d k)).life width height eats 20 ∈
        reproduction (aging (processPredation
          (moveAnimals width height (simulate width height 19 pop)))) ∧
      ((Entity.predator (Predator.new x y d k)).life width height eats 20).toAnimal.age = 20 ∧
      ((Entity.predator (Predator.new x y d k)).life width height eats 20).isDead = true ∧
      (Entity.predator (Predator.new x y d k)).life width height eats 20
        ∉ simulate width height 20 pop) := by
  constructor
  · intro width height pop x y d k h0 hsurv
    have hl := life_lifespan width height pop (Entity.prey (Prey.new x y d k)) (fun _ => 0) 9
      rfl rfl h0 hsurv
    exact ⟨hl.1, hl.2.2.1, hl.2.2.2.1, hl.2.2.2.2.1, hl.2.2.2.2.2⟩
  · intro width height pop x y d k eats h0 hsurv
    have hl := life_lifespan width height pop (Entity.predator (Predator.new x y d k)) eats 19
      rfl rfl h0 hsurv
    exact ⟨hl.1, hl.2.2.1, hl.2.2.2.1, hl.2.2.2.2.1, hl.2.2.2.2.2⟩

theorem lifespan_prey_ten_predator_twenty_witness :
    (Entity.prey (Prey.new 0 0 .RIGHT 100) ∈ presetScenario ∧
      (∀ i < 10, sparedByPredation 4 4 presetScenario (fun _ => 0)
        (Entity.prey (Prey.new 0 0 .RIGHT 100)) i) ∧
      (Entity.prey (Prey.new 0 0 .RIGHT 100)).life 4 4 (fun _ => 0) 9
        ∈ simulate 4 4 9 presetScenario ∧
      (Entity.prey (Prey.new 0 0 .RIGHT 100)).life 4 4 (fun _ => 0) 10
        ∉ simulate 4 4 10 presetScenario) ∧
    (Entity.predator (Predator.new 0 3 .UP 100) ∈ presetScenario ∧
      (∀ i < 20, sparedByPredation 4 4 presetScenario (fun _ => 0)
        (Entity.predator (Predator.new 0 3 .UP 100)) i) ∧
      (Entity.predator (Predator.new 0 3 .UP 100)).life 4 4 (fun _ => 0) 19
        ∈ simulate 4 4 19 presetScenario ∧
      (Entity.predator (Predator.new 0 3 .UP 100)).life 4 4 (fun _ => 0) 20
        ∉ simulate 4 4 20 presetScenario) :=
  ⟨⟨by decide, by unfold sparedByPredation; decide,
     ((lifespan_prey_ten_predator_twenty.1 4 4 presetScenario 0 0 .RIGHT 100
       (by decide) (by unfold sparedByPredation; decide)).1 9 (le_refl 9)).1,
     (lifespan_prey_ten_predator_twenty.1 4 4 presetScenario 0 0 .RIGHT 100
       (by decide) (by unfold sparedByPredation; decide)).2.2.2.2⟩,
   ⟨by decide, by unfold sparedByPredation; decide,
     ((lifespan_prey_ten_predator_twenty.2 4 4 presetScenario 0 3 .UP 100 (fun _ => 0)
       (by decide) (by unfold sparedByPredation; decide)).1 19 (le_refl 19)).1,
     (lifespan_prey_ten_predator_twenty.2 4 4 presetScenario 0 3 .UP 100 (fun _ => 0)
       (by decide) (by unfold sparedByPredation; decide)).2.2.2.2⟩⟩

theorem Entity.lifeStep_prey (w h : Int) (m : Nat) (q : Prey) :
    (Entity.prey q).lifeStep w h m =
      Entity.prey { q with toAnimal := (q.toAnimal.move w h).increaseAge } := by
  unfold Entity.lifeStep
  simp only [Entity.move, Entity.eatTimes_prey, Entity.increaseAge, Entity.afterReproduce_prey]

theorem Entity.life_prey (w h : Int) (eats : Nat → Nat) (n : Nat) (q : Prey) :
    ∃ a : Animal, (Entity.prey q).life w h eats n =
      Entity.prey { toAnimal := a, hasReproduced1 := q.hasReproduced1,
                    hasReproduced2 := q.hasReproduced2 } := by
  induction n with
  | zero => exact ⟨q.toAnimal, rfl⟩
  | succ n ih =>
    obtain ⟨a, ha⟩ := ih
    refine ⟨(a.move w h).increaseAge, ?_⟩
    simp only [Entity.life, ha, Entity.lifeStep_prey]

/-- The prey built by the constructor, when the reproduction phase of its step `i + 1`
asks it: it can reproduce exactly in steps 5 and 10. -/
theorem prey_canReproduce_at (w h x y : Int) (d : Direction) (k : Int) (i : Nat) :
    ((((Entity.prey (Prey.new x y d k)).life w h (fun _ => 0) i).move w h).increaseAge).canReproduce
      = decide (i + 1 = 5 ∨ i + 1 = 10) := by
  have hage := Entity.life_age w h (fun _ => 0) i (Entity.prey (Prey.new x y d k))
  obtain ⟨a, ha⟩ := Entity.life_prey w h (fun _ => 0) i (Prey.new x y d k)
  rw [ha] at hage ⊢
  simp only [Entity.toAnimal, Prey.new, Animal.new, zero_add] at hage
  simp only [Entity.move, Entity.increaseAge, Entity.canReproduce, Prey.canReproduce,
    Animal.increaseAge, Animal.move_age, hage, Prey.new, Bool.not_false, Bool.and_true]
  rw [Bool.eq_iff_iff]
  simp only [Bool.or_eq_true, beq_iff_eq, decide_eq_true_eq]
  constructor
  · rintro (h1 | h1)
    · left; omega
    · right; omega
  · rintro (h1 | h1)
    · left; omega
    · right; omega

theorem reproductionLoop_snd_append (pre post : List Entity) (q : Entity) :
    (reproductionLoop (pre ++ q :: post)).2 =
      (reproductionLoop pre).2 ++ (if q.canReproduce then [q.reproduce.2] else []) ++
        (reproductionLoop post).2 := by
  simp only [reproductionLoop_eq, List.filter_append, List.filter_cons, List.map_append]
  by_cases hc : q.canReproduce = true
  · simp [hc]
  · simp [hc]

theorem Entity.life_turnPeriod (w h : Int) (eats : Nat → Nat) (n : Nat) (e : Entity) :
    (e.life w h eats n).toAnimal.turnPeriod = e.toAnimal.turnPeriod := by
  induction n with
  | zero => rfl
  | succ n ih =>
    simp only [Entity.life, Entity.lifeStep, Entity.afterReproduce_toAnimal]
    have : ∀ a : Entity, a.increaseAge.toAnimal.turnPeriod = a.toAnimal.turnPeriod := by
      intro a; cases a <;> rfl
    rw [this, Entity.eatTimes_toAnimal, Entity.move_toAnimal, Animal.move_turnPeriod, ih]

theorem mem_reproduction_offspring (animals : List Entity) (e : Entity) (he : e ∈ animals)
    (hc : e.canReproduce = true) : e.reproduce.2 ∈ reproduction animals := by
  rw [reproduction_eq]
  apply List.mem_append_right
  simp only [List.mem_map, List.mem_filter]
  exact ⟨e, ⟨he, hc⟩, rfl⟩

theorem Entity.isDead_offspring (e : Entity) : e.reproduce.2.isDead = false := by
  cases e <;> rfl

theorem reproduction_append_cons (pre post : List Entity) (q : Entity) :
    reproduction (pre ++ q :: post) =
      (pre ++ q :: post).map Entity.afterReproduce ++
        ((reproductionLoop pre).2 ++ (if q.canReproduce then [q.reproduce.2] else []) ++
          (reproductionLoop post).2) := by
  show (reproductionLoop (pre ++ q :: post)).1 ++ (reproductionLoop (pre ++ q :: post)).2 = _
  rw [reproductionLoop_snd_append]
  rw [reproductionLoop_eq]

/-- The offspring of the prey built by the constructor, in the step `i + 1` of its life:
a new prey on the cell and with the direction of the parent, with the `turnPeriod` the
parent was built with. -/
theorem prey_offspring_at (w h x y : Int) (d : Direction) (k : Int) (i : Nat) :
    ((((Entity.prey (Prey.new x y d k)).life w h (fun _ => 0) i).move w h).increaseAge).reproduce.2
      = Entity.prey (Prey.new
          ((((Entity.prey (Prey.new x y d k)).life w h (fun _ => 0) i).move w h).increaseAge).getX
          ((((Entity.prey (Prey.new x y d k)).life w h (fun _ => 0) i).move w h).increaseAge).getY
          ((((Entity.prey (Prey.new x y d k)).life w h (fun _ => 0) i).move w h).increaseAge).getDirection
          k) := by
  have htp := Entity.life_turnPeriod w h (fun _ => 0) i (Entity.prey (Prey.new x y d k))
  obtain ⟨a, ha⟩ := Entity.life_prey w h (fun _ => 0) i (Prey.new x y d k)
  rw [ha] at htp ⊢
  simp only [Entity.toAnimal, Prey.new, Animal.new] at htp
  simp only [Entity.move, Entity.increaseAge, Entity.reproduce, Prey.reproduce, Entity.getX,
    Entity.getY, Entity.getDirection, Entity.toAnimal, Animal.increaseAge,
    Animal.move_turnPeriod, htp]

/-- Claim C6: take a prey built by the constructor, in a population, that no predation
phase removes: in each of the steps 1 to 10, if the prey is in the population when the
step starts, it is in the population that the predation phase of the step returns. Then
for every `n = i + 1` from 1 to 10 the reproduction phase of step `n` finds the prey in
the population; the prey can reproduce exactly when `n = 5` or `n = 10`; the phase then
returns the population with exactly one new animal for this prey at its place among the
new animals, and none for it otherwise; the new animal is a new prey on the parent's cell
with its direction and `turnPeriod`, and it is in the population after the step. So the
prey has exactly two offspring over the steps 1 to 10, and the second is created in step
10, the step whose extinction phase removes the prey. -/
theorem prey_offspring_schedule (width height : Int) (pop : List Entity) (x y : Int)
    (d : Direction) (k : Int)
    (h0 : Entity.prey (Prey.new x y d k) ∈ pop)
    (hsurv : ∀ i < 10, sparedByPredation width height pop (fun _ => 0)
      (Entity.prey (Prey.new x y d k)) i) :
    (∀ i < 10,
      ((((Entity.prey (Prey.new x y d k)).life width height (fun _ => 0) i).move
          width height).increaseAge
        ∈ aging (processPredation (moveAnimals width height (simulate width height i pop)))) ∧
      (((((Entity.prey (Prey.new x y d k)).life width height (fun _ => 0) i).move
          width height).increaseAge).canReproduce = true ↔ (i + 1 = 5 ∨ i + 1 = 10)) ∧
      (((((Entity.prey (Prey.new x y d k)).life width height (fun _ => 0) i).move
          width height).increaseAge).reproduce.2 = Entity.prey (Prey.new
        ((((Entity.prey (Prey.new x y d k)).life width height (fun _ => 0) i).move
          width height).increaseAge).getX
        ((((Entity.prey (Prey.new x y d k)).life width height (fun _ => 0) i).move
          width height).increaseAge).getY
        ((((Entity.prey (Prey.new x y d k)).life width height (fun _ => 0) i).move
          width height).increaseAge).getDirection
        k)) ∧
      (∀ pre post : List Entity,
        reproduction (pre ++
          ((((Entity.prey (Prey.new x y d k)).life width height (fun _ => 0) i).move
            width height).increaseAge) :: post) =
        (pre ++
          ((((Entity.prey (Prey.new x y d k)).life width height (fun _ => 0) i).move
            width height).increaseAge) :: post).map Entity.afterReproduce ++
        ((reproductionLoop pre).2 ++
          (if i + 1 = 5 ∨ i + 1 = 10 then
            [((((Entity.prey (Prey.new x y d k)).life width height (fun _ => 0) i).move
              width height).increaseAge).reproduce.2]
           else []) ++
          (reproductionLoop post).2)) ∧
      (i + 1 = 5 ∨ i + 1 = 10 →
        ((((Entity.prey (Prey.new x y d k)).life width height (fun _ => 0) i).move
            width height).increaseAge).reproduce.2
          ∈ reproduction (aging (processPredation
              (moveAnimals width height (simulate width height i pop)))) ∧
        ((((Entity.prey (Prey.new x y d k)).life width height (fun _ => 0) i).move
            width height).increaseAge).reproduce.2
          ∈ simulate width height (i + 1) pop)) ∧
    (List.range 10).countP (fun i =>
      ((((Entity.prey (Prey.new x y d k)).life width height (fun _ => 0) i).move
        width height).increaseAge).canReproduce) = 2 ∧
    (Entity.prey (Prey.new x y d k)).life width height (fun _ => 0) 10 ∈
      reproduction (aging (processPredation
        (moveAnimals width height (simulate width height 9 pop)))) ∧
    (Entity.prey (Prey.new x y d k)).life width height (fun _ => 0) 10
      ∉ simulate width height 10 pop := by
  have hl := life_lifespan width height pop (Entity.prey (Prey.new x y d k)) (fun _ => 0) 9
    rfl rfl h0 hsurv
  refine ⟨?_, ?_, hl.2.2.1, hl.2.2.2.2.2⟩
  · intro i hi
    have hq := mem_aging_of_mem _ _ (hl.2.1 i (by omega))
    simp only [Entity.eatTimes] at hq
    refine ⟨hq, ?_, prey_offspring_at width height x y d k i, ?_, ?_⟩
    · rw [prey_canReproduce_at]
      simp
    · intro pre post
      rw [reproduction_append_cons, prey_canReproduce_at]
      simp
    · intro hn
      have hc : ((((Entity.prey (Prey.new x y d k)).life width height (fun _ => 0) i).move
          width height).increaseAge).canReproduce = true := by
        rw [prey_canReproduce_at]
        simpa using hn
      have hmem := mem_reproduction_offspring _ _ hq hc
      refine ⟨hmem, ?_⟩
      show _ ∈ simulateStep width height (simulate width height i pop)
      unfold simulateStep
      rw [mem_extinction]
      exact ⟨hmem, Entity.isDead_offspring _⟩
  · have : (fun i =>
        ((((Entity.prey (Prey.new x y d k)).life width height (fun _ => 0) i).move
          width height).increaseAge).canReproduce) =
        (fun i => decide (i + 1 = 5 ∨ i + 1 = 10)) := by
      funext i
      exact prey_canReproduce_at width height x y d k i
    rw [this]
    decide

theorem prey_offspring_schedule_witness :
    Entity.prey (Prey.new 0 0 .RIGHT 100) ∈ presetScenario ∧
    (∀ i < 10, sparedByPredation 4 4 presetScenario (fun _ => 0)
      (Entity.prey (Prey.new 0 0 .RIGHT 100)) i) ∧
    (Entity.prey (Prey.new 1 0 .RIGHT 100) ∈ simulate 4 4 5 presetScenario ∧
      Entity.prey (Prey.new 2 0 .RIGHT 100) ∈ simulate 4 4 10 presetScenario) :=
  ⟨by decide, by unfold sparedByPredation; decide,
   ((prey_offspring_schedule 4 4 presetScenario 0 0 .RIGHT 100 (by decide)
      (by unfold sparedByPredation; decide)).1 4 (by decide)).2.2.2.2 (Or.inl rfl) |>.2,
   ((prey_offspring_schedule 4 4 presetScenario 0 0 .RIGHT 100 (by decide)
      (by unfold sparedByPredation; decide)).1 9 (by decide)).2.2.2.2 (Or.inr rfl) |>.2⟩

/-! ## The constructor value of `moveSteps` -/

theorem stepsPerMove_new (x y : Int) (d : Direction) (k : Int) :
    (Entity.prey (Prey.new x y d k)).toAnimal.moveSteps
      = (Entity.prey (Prey.new x y d k)).stepsPerMove ∧
    (Entity.predator (Predator.new x y d k)).toAnimal.moveSteps
      = (Entity.predator (Predator.new x y d k)).stepsPerMove :=
  ⟨rfl, rfl⟩

theorem Animal.move_moveSteps (w h : Int) (a : Animal) :
    (a.move w h).moveSteps = a.moveSteps := by
  unfold Animal.move Animal.turn
  simp only
  split <;> exact (Animal.moveLoop_frame w h _ a).2.2.2.1

theorem stepsPerMove_preserved (w h : Int) (e : Entity)
    (hs : e.toAnimal.moveSteps = e.stepsPerMove) :
    (e.move w h).toAnimal.moveSteps = (e.move w h).stepsPerMove ∧
    e.eat.toAnimal.moveSteps = e.eat.stepsPerMove ∧
    e.increaseAge.toAnimal.moveSteps = e.increaseAge.stepsPerMove ∧
    e.reproduce.1.toAnimal.moveSteps = e.reproduce.1.stepsPerMove ∧
    e.reproduce.2.toAnimal.moveSteps = e.reproduce.2.stepsPerMove := by
  refine ⟨?_, ?_, ?_, ?_, ?_⟩
  · rw [Entity.move_toAnimal, Animal.move_moveSteps, hs]
    cases e <;> rfl
  · cases e <;> exact hs
  · cases e <;> exact hs
  · cases e <;> exact hs
  · cases e <;> rfl

/-! ## Positions stay on the grid -/

theorem Entity.move_inBounds (w h : Int) (hw : 1 ≤ w) (hh : 1 ≤ h) (e : Entity)
    (he : e.inBounds w h = true) : (e.move w h).inBounds w h = true := by
  simp only [Entity.inBounds, decide_eq_true_eq] at he ⊢
  obtain ⟨h1, h2⟩ := Animal.moveLoop_pos w h hw hh e.toAnimal.moveSteps.toNat e.toAnimal
    ⟨he.1, he.2.1⟩ ⟨he.2.2.1, he.2.2.2⟩
  simp only [Entity.getX, Entity.getY, Entity.move_toAnimal, Animal.move, Animal.turn_posX,
    Animal.turn_posY, h1, h2]
  exact ⟨Int.emod_nonneg _ (by omega), Int.emod_lt_of_pos _ (by omega),
    Int.emod_nonneg _ (by omega), Int.emod_lt_of_pos _ (by omega)⟩

theorem inBounds_of_cellOf {w h : Int} {e e0 : Entity} (hc : cellOf e = cellOf e0)
    (h0 : e0.inBounds w h = true) : e.inBounds w h = true := by
  simp only [cellOf, Prod.mk.injEq] at hc
  simp only [Entity.inBounds, hc.2.1, hc.2.2] at h0 ⊢
  exact h0

/-- Every animal of the marked population is an animal of the input population after
some number of `eat` calls. -/
theorem mem_markVictims_fst (animals : List Entity) (e : Entity)
    (he : e ∈ (markVictims animals).1) :
    ∃ e0 ∈ animals, ∃ n : Nat, e = e0.eatTimes n := by
  obtain ⟨i, hi⟩ := List.mem_iff_getElem?.1 he
  rw [markVictims_getElem?] at hi
  cases h0 : animals[i]? with
  | none => rw [h0] at hi; cases hi
  | some e0 =>
    rw [h0, Option.map_some', Option.some.injEq] at hi
    exact ⟨e0, List.mem_iff_getElem?.2 ⟨i, h0⟩, _, hi.symm⟩

/-- Every animal left by the predation phase has the species and the cell of an animal
of the population the phase started from. -/
theorem mem_processPredation_cell (animals : List Entity) (e : Entity)
    (he : e ∈ processPredation animals) : ∃ e0 ∈ animals, cellOf e = cellOf e0 := by
  obtain ⟨e0, h0, n, rfl⟩ := mem_markVictims_fst animals e
    ((processPredation_sublist animals).subset he)
  exact ⟨e0, h0, cellOf_eatTimes n e0⟩

theorem cellOf_increaseAge (e : Entity) : cellOf e.increaseAge = cellOf e := by
  cases e <;> rfl

theorem cellOf_afterReproduce (e : Entity) : cellOf e.afterReproduce = cellOf e := by
  simp only [cellOf, Entity.getX, Entity.getY, Entity.afterReproduce_toAnimal,
    Entity.afterReproduce_isPredator]

theorem cellOf_offspring (e : Entity) : cellOf e.reproduce.2 = cellOf e := by
  cases e <;> rfl

/-- Every animal after aging, reproduction and extinction, offspring included, has the
species and the cell of an animal that the predation phase left. -/
theorem mem_after_predation_cell (animals : List Entity) (e : Entity)
    (he : e ∈ extinction (reproduction (aging animals))) :
    ∃ e1 ∈ animals, cellOf e = cellOf e1 := by
  have h1 := ((mem_extinction _ e).1 he).1
  rw [reproduction_eq, List.mem_append] at h1
  rcases h1 with h1 | h1
  · simp only [aging, List.map_map, List.mem_map, Function.comp] at h1
    obtain ⟨e1, hm, rfl⟩ := h1
    exact ⟨e1, hm, by rw [cellOf_afterReproduce, cellOf_increaseAge]⟩
  · simp only [aging, List.mem_map, List.mem_filter] at h1
    obtain ⟨e2, ⟨⟨e1, hm, rfl⟩, _⟩, rfl⟩ := h1
    exact ⟨e1, hm, by rw [cellOf_offspring, cellOf_increaseAge]⟩

theorem simulateStep_inBounds (w h : Int) (hw : 1 ≤ w) (hh : 1 ≤ h) (pop : List Entity)
    (hpop : ∀ e ∈ pop, e.inBounds w h = true) :
    ∀ e ∈ simulateStep w h pop, e.inBounds w h = true := by
  intro e he
  obtain ⟨e1, h1, c1⟩ := mem_after_predation_cell _ e he
  obtain ⟨e0, h0, c0⟩ := mem_processPredation_cell _ e1 h1
  simp only [moveAnimals, List.mem_map] at h0
  obtain ⟨a, ha, rfl⟩ := h0
  exact inBounds_of_cellOf (c1.trans c0) (Entity.move_inBounds w h hw hh a (hpop a ha))

theorem simulate_inBounds (w h : Int) (hw : 1 ≤ w) (hh : 1 ≤ h) (pop : List Entity)
    (hpop : ∀ e ∈ pop, e.inBounds w h = true) (n : Nat) :
    ∀ e ∈ simulate w h n pop, e.inBounds w h = true := by
  induction n with
  | zero => exact hpop
  | succ n ih => exact simulateStep_inBounds w h hw hh _ ih

theorem bumpCell_spec (field : List (List Int)) (cols rows : Nat) (hf : hasShape field cols rows)
    (x y d : Int) (hx : 0 ≤ x ∧ x < cols) (hy : 0 ≤ y ∧ y < rows) :
    ∃ f, bumpCell field x y d = some f ∧ hasShape f cols rows ∧
      ∀ i j : Nat, cellAt f i j =
        (cellAt field i j).map (fun c => c + if (x = (i : Int) ∧ y = (j : Int)) then d else 0) := by
  obtain ⟨hlen, hrows⟩ := hf
  have hyl : y.toNat < field.length := by omega
  obtain ⟨row, hrow⟩ : ∃ row, field[y.toNat]? = some row :=
    ⟨field[y.toNat], List.getElem?_eq_getElem hyl⟩
  have hrl : row.length = cols := hrows row (List.mem_iff_getElem?.2 ⟨_, hrow⟩)
  have hxl : x.toNat < row.length := by omega
  obtain ⟨cell, hcell⟩ : ∃ cell, row[x.toNat]? = some cell :=
    ⟨row[x.toNat], List.getElem?_eq_getElem hxl⟩
  refine ⟨field.set y.toNat (row.set x.toNat (cell + d)), ?_, ⟨?_, ?_⟩, ?_⟩
  · unfold bumpCell
    rw [if_pos ⟨hy.1, hx.1⟩, hrow]
    simp only [hcell]
  · rw [List.length_set, hlen]
  · intro r hr
    rcases List.mem_or_eq_of_mem_set hr with h1 | h1
    · exact hrows r h1
    · rw [h1, List.length_set, hrl]
  · intro i j
    unfold cellAt
    rw [List.getElem?_set]
    by_cases hj : y.toNat = j
    · have hjy : y = (j : Int) := by omega
      rw [if_pos hj, if_pos hyl, ← hj, hrow]
      simp only [List.getElem?_set]
      by_cases hi : x.toNat = i
      · have hix : x = (i : Int) := by omega
        rw [if_pos hi, if_pos hxl, ← hi, hcell, Option.map_some', if_pos ⟨by omega, by omega⟩]
      · have hix : ¬ x = (i : Int) := by omega
        rw [if_neg hi, if_neg (fun hh => hix hh.1)]
        cases row[i]? <;> simp
    · have hjy : ¬ y = (j : Int) := by omega
      rw [if_neg hj, if_neg (fun hh => hjy hh.2)]
      cases field[j]? with
      | none => rfl
      | some r => cases r[i]? <;> simp

theorem countP_cons_cast (p : Entity → Bool) (a : Entity) (rest : List Entity) :
    (((a :: rest).countP p : Nat) : Int) = (rest.countP p : Int) + (if p a then 1 else 0) := by
  rw [List.countP_cons]
  split <;> simp

theorem countAnimals_spec (cols rows : Nat) (animals : List Entity) :
    ∀ field : List (List Int), hasShape field cols rows →
      (∀ a ∈ animals, a.inBounds cols rows = true) →
      ∃ f, countAnimals animals field = some f ∧ hasShape f cols rows ∧
        ∀ i j : Nat, cellAt f i j =
          (cellAt field i j).map (fun c => c + (preyOn animals i j : Int)
            - (predatorsOn animals i j : Int)) := by
  induction animals with
  | nil =>
    intro field hf _
    refine ⟨field, rfl, hf, fun i j => ?_⟩
    cases cellAt field i j <;> simp [preyOn, predatorsOn]
  | cons a rest ih =>
    intro field hf hin
    have ha := hin a (List.mem_cons_self a rest)
    simp only [Entity.inBounds, decide_eq_true_eq] at ha
    obtain ⟨f1, hb, hs1, hc1⟩ := bumpCell_spec field cols rows hf a.getX a.getY
      (if a.isPredator then -1 else 1) ⟨ha.1, ha.2.1⟩ ⟨ha.2.2.1, ha.2.2.2⟩
    obtain ⟨f2, hcount, hs2, hc2⟩ := ih f1 hs1 (fun b hb => hin b (List.mem_cons_of_mem a hb))
    refine ⟨f2, ?_, hs2, fun i j => ?_⟩
    · simp only [countAnimals, hb, hcount]
    · rw [hc2, hc1]
      cases cellAt field i j with
      | none => rfl
      | some c =>
        simp only [Option.map_some', Option.some.injEq, preyOn, predatorsOn, countP_cons_cast]
        by_cases hcell : (a.getX = (i : Int) ∧ a.getY = (j : Int))
        · cases hp : a.isPredator
          · simp only [if_pos hcell, decide_eq_true hcell, Bool.not_false, Bool.and_true,
              Bool.false_and, if_true, Bool.false_eq_true, if_false]
            ring
          · simp only [if_pos hcell, decide_eq_true hcell, Bool.not_true, Bool.and_true,
              Bool.false_and, if_true, Bool.false_eq_true, if_false]
            ring
        · simp only [if_neg hcell, decide_eq_false hcell, Bool.and_false, Bool.false_eq_true,
            if_false]
          ring

theorem hasShape_replicate (cols rows : Nat) :
    hasShape (List.replicate rows (List.replicate cols (0 : Int))) cols rows := by
  refine ⟨List.length_replicate _ _, fun row hr => ?_⟩
  rw [List.eq_of_mem_replicate hr, List.length_replicate]

theorem printFieldCounts_spec (w h : Int) (hw : 1 ≤ w) (hh : 1 ≤ h) (animals : List Entity)
    (hin : ∀ a ∈ animals, a.inBounds w h = true) :
    ∃ f, printFieldCounts w h animals = some f ∧ hasShape f w.toNat h.toNat ∧
      ∀ i j : Nat, i < w.toNat → j < h.toNat →
        cellAt f i j = some ((preyOn animals i j : Int) - (predatorsOn animals i j : Int)) := by
  have hwc : ((w.toNat : Nat) : Int) = w := by omega
  have hhc : ((h.toNat : Nat) : Int) = h := by omega
  obtain ⟨f, hf, hs, hc⟩ := countAnimals_spec w.toNat h.toNat animals _
    (hasShape_replicate w.toNat h.toNat) (by rw [hwc, hhc]; exact hin)
  refine ⟨f, hf, hs, fun i j hi hj => ?_⟩
  rw [hc]
  simp [cellAt, List.getElem?_replicate, hi, hj]

/-- Under the convention of `removeVictims`, on a grid with `width ≥ 1` and
`height ≥ 1`: if every animal of a population is inside the grid, so is every animal of
the population after `simulateStep`, offspring included, and after any number of steps,
and the counting loop of `printField` makes every access `field[y][x]` inside the
`height` by `width` table. -/
theorem simulate_stays_on_grid (width height : Int) (hw : 1 ≤ width) (hh : 1 ≤ height)
    (pop : List Entity)
    (hpop : ∀ e ∈ pop, 0 ≤ e.getX ∧ e.getX < width ∧ 0 ≤ e.getY ∧ e.getY < height) :
    (∀ e ∈ simulateStep width height pop,
      0 ≤ e.getX ∧ e.getX < width ∧ 0 ≤ e.getY ∧ e.getY < height) ∧
    (∀ n : Nat, ∀ e ∈ simulate width height n pop,
      0 ≤ e.getX ∧ e.getX < width ∧ 0 ≤ e.getY ∧ e.getY < height) ∧
    (∀ n : Nat, (printFieldCounts width height (simulate width height n pop)).isSome = true) := by
  have hpop : ∀ e ∈ pop, e.inBounds width height = true := by
    intro e he
    simpa [Entity.inBounds] using hpop e he
  refine ⟨?_, ?_, ?_⟩
  · intro e he
    have := simulateStep_inBounds width height hw hh pop hpop e he
    simpa [Entity.inBounds] using this
  · intro n e he
    have := simulate_inBounds width height hw hh pop hpop n e he
    simpa [Entity.inBounds] using this
  · intro n
    obtain ⟨f, hf, _⟩ := printFieldCounts_spec width height hw hh _
      (simulate_inBounds width height hw hh pop hpop n)
    rw [hf]
    rfl

/-! ## A step without predators -/

theorem hitsOf_of_no_predator (animals : List Entity)
    (hno : ∀ e ∈ animals, e.isPredator = false) (i : Nat) : hitsOf animals i = [] := by
  unfold hitsOf
  cases h : animals[i]? with
  | none => rfl
  | some e =>
    have := hno e (List.mem_iff_getElem?.2 ⟨i, h⟩)
    simp [this]

theorem markVictims_of_no_predator (animals : List Entity)
    (hno : ∀ e ∈ animals, e.isPredator = false) : markVictims animals = (animals, []) := by
  apply Prod.ext
  · apply List.ext_getElem?
    intro i
    rw [markVictims_getElem?, hitsOf_of_no_predator animals hno i]
    cases animals[i]? <;> simp [Entity.eatTimes]
  · rw [markVictims_snd]
    simp [hitsOf_of_no_predator animals hno]

theorem processPredation_of_no_predator (animals : List Entity)
    (hno : ∀ e ∈ animals, e.isPredator = false) : processPredation animals = animals := by
  unfold processPredation
  rw [markVictims_of_no_predator animals hno]
  rfl

/-- Claim C12: for a population without predators in which every prey is younger than 10
and will not have age 5 or 10 when the reproduction phase of this step asks it,
`simulateStep` returns the population in the same order and of the same size, each
animal replaced by its moved state with the age increased by 1: a prey keeps its
species, its flags, `turnPeriod` and `moveSteps`, and its position, direction and turn
counter are those that `Animal::move` gives. -/
theorem simulateStep_without_events (width height : Int) (pop : List Entity)
    (hno : ∀ e ∈ pop, e.isPredator = false)
    (hage : ∀ e ∈ pop, e.toAnimal.age + 1 ≠ 5 ∧ e.toAnimal.age + 1 ≠ 10 ∧ e.toAnimal.age < 10) :
    simulateStep width height pop = pop.map (fun e => (e.move width height).increaseAge) ∧
    (simulateStep width height pop).length = pop.length ∧
    (∀ q : Prey, ((Entity.prey q).move width height).increaseAge = Entity.prey
      { posX := (q.toAnimal.move width height).posX,
        posY := (q.toAnimal.move width height).posY,
        direction := (q.toAnimal.move width height).direction,
        turnPeriod := q.turnPeriod,
        age := q.age + 1,
        moveSteps := q.moveSteps,
        turnCounter := (q.toAnimal.move width height).turnCounter,
        hasReproduced1 := q.hasReproduced1,
        hasReproduced2 := q.hasReproduced2 }) := by
  have hmoved : ∀ e ∈ moveAnimals width height pop, e.isPredator = false := by
    intro e he
    simp only [moveAnimals, List.mem_map] at he
    obtain ⟨a, ha, rfl⟩ := he
    rw [Entity.move_isPredator]
    exact hno a ha
  have hstep : simulateStep width height pop =
      pop.map (fun e => (e.move width height).increaseAge) := by
    unfold simulateStep
    rw [processPredation_of_no_predator _ hmoved, reproduction_eq]
    have hcan : ∀ e ∈ aging (moveAnimals width height pop), e.canReproduce = false := by
      intro e he
      simp only [aging, moveAnimals, List.map_map, List.mem_map, Function.comp] at he
      obtain ⟨a, ha, rfl⟩ := he
      have h1 := hno a ha
      have h2 := hage a ha
      cases a with
      | predator p => simp [Entity.isPredator] at h1
      | prey q =>
        simp only [Entity.toAnimal] at h2
        simp only [Entity.move, Entity.increaseAge, Entity.canReproduce, Prey.canReproduce,
          Animal.increaseAge, Animal.move_age]
        simp [h2.1, h2.2.1]
    have hfilter : (aging (moveAnimals width height pop)).filter Entity.canReproduce = [] := by
      rw [List.filter_eq_nil_iff]
      intro e he
      simp [hcan e he]
    have hmap : (aging (moveAnimals width height pop)).map Entity.afterReproduce
        = aging (moveAnimals width height pop) := by
      conv_rhs => rw [← List.map_id (aging (moveAnimals width height pop))]
      apply List.map_congr_left
      intro e he
      simp [Entity.afterReproduce, hcan e he]
    rw [hfilter, hmap, List.map_nil, List.append_nil]
    unfold extinction
    rw [List.filter_eq_self.2]
    · simp [aging, moveAnimals, List.map_map, Function.comp]
    · intro e he
      simp only [aging, moveAnimals, List.map_map, List.mem_map, Function.comp] at he
      obtain ⟨a, ha, rfl⟩ := he
      have h2 := hage a ha
      rw [Entity.isDead_eq, Entity.increaseAge_age, Entity.move_toAnimal, Animal.move_age,
        Entity.increaseAge_isPredator, Entity.move_isPredator, hno a ha]
      simp only [Bool.false_eq_true, if_false, Bool.not_eq_true', decide_eq_false_iff_not]
      omega
  refine ⟨hstep, ?_, ?_⟩
  · rw [hstep, List.length_map]
  · intro q
    simp only [Entity.move, Entity.increaseAge, Animal.increaseAge, Animal.move_age,
      Animal.move_turnPeriod, Animal.move_moveSteps]

theorem simulateStep_without_events_witness :
    (∀ e ∈ [Entity.prey (Prey.new 0 0 .RIGHT 100)], e.isPredator = false) ∧
    (∀ e ∈ [Entity.prey (Prey.new 0 0 .RIGHT 100)],
      e.toAnimal.age + 1 ≠ 5 ∧ e.toAnimal.age + 1 ≠ 10 ∧ e.toAnimal.age < 10) ∧
    simulateStep 4 4 [Entity.prey (Prey.new 0 0 .RIGHT 100)] =
      [((Entity.prey (Prey.new 0 0 .RIGHT 100)).move 4 4).increaseAge] :=
  ⟨by decide, by decide,
   (simulateStep_without_events 4 4 [Entity.prey (Prey.new 0 0 .RIGHT 100)]
     (by decide) (by decide)).1⟩

/-! ## The end-to-end scenario -/

/-- A population of one prey and one predator that stand on the same cell: the
predation phase leaves the predator alone, with one more prey eaten. -/
theorem processPredation_pair (q : Prey) (p : Predator)
    (hx : p.posX = q.posX) (hy : p.posY = q.posY) :
    processPredation [Entity.prey q, Entity.predator p] = [Entity.predator p.eat] := by
  have hr : List.range 2 = [0, 1] := rfl
  have hm : markVictims [Entity.prey q, Entity.predator p] =
      ([Entity.prey q, Entity.predator p.eat], [0]) := by
    simp [markVictims, markOuterStep, markInnerStep, hr, Entity.isPredator, Entity.getX,
      Entity.getY, Entity.toAnimal, Entity.eat, hx, hy]
  unfold processPredation
  rw [hm]
  rfl

/-- Claim C13: on the 3x3 grid, one `simulateStep` on `endToEndScenario` gives exactly
the prey at (0,1) facing DOWN with age 1 and the predator at (1,2) facing UP with age 1
and `preyEaten = 0`. In every later step of the prey's life (steps 2 to 10) both animals
are in the population when the step starts, and if they share a cell after the movement
the predation phase of that step removes the prey and leaves the predator with consumed
count 1; in this run the two never share a cell after a movement, so no step does so.
Whenever a population of one prey and one predator with consumed count 0 share a cell,
the predation phase leaves just the predator, with consumed count 1. -/
theorem endToEnd_first_step_and_meetings :
    simulateStep 3 3 endToEndScenario =
      [Entity.prey { posX := 0, posY := 1, direction := .DOWN, turnPeriod := 1, age := 1,
                     moveSteps := 1, turnCounter := 0,
                     hasReproduced1 := false, hasReproduced2 := false },
       Entity.predator { posX := 1, posY := 2, direction := .UP, turnPeriod := 2, age := 1,
                         moveSteps := 2, turnCounter := 1, preyEaten := 0, reproduced := 1 }] ∧
    (∀ n < 10, 1 ≤ n →
      (Entity.prey (Prey.new 2 1 .RIGHT 1)).life 3 3 (fun _ => 0) n
        ∈ simulate 3 3 n endToEndScenario ∧
      (Entity.predator (Predator.new 1 1 .UP 2)).life 3 3 (fun _ => 0) n
        ∈ simulate 3 3 n endToEndScenario ∧
      ((((Entity.prey (Prey.new 2 1 .RIGHT 1)).life 3 3 (fun _ => 0) n).move 3 3).getX =
          (((Entity.predator (Predator.new 1 1 .UP 2)).life 3 3 (fun _ => 0) n).move 3 3).getX ∧
        (((Entity.prey (Prey.new 2 1 .RIGHT 1)).life 3 3 (fun _ => 0) n).move 3 3).getY =
          (((Entity.predator (Predator.new 1 1 .UP 2)).life 3 3 (fun _ => 0) n).move 3 3).getY →
        ((Entity.prey (Prey.new 2 1 .RIGHT 1)).life 3 3 (fun _ => 0) n).move 3 3
          ∉ processPredation (moveAnimals 3 3 (simulate 3 3 n endToEndScenario)) ∧
        (((Entity.predator (Predator.new 1 1 .UP 2)).life 3 3 (fun _ => 0) n).move 3 3).eat
          ∈ processPredation (moveAnimals 3 3 (simulate 3 3 n endToEndScenario)) ∧
        ((((Entity.predator (Predator.new 1 1 .UP 2)).life 3 3 (fun _ => 0) n).move 3 3).eat).consumed
          = 1)) ∧
    (∀ n < 10,
      ¬ ((((Entity.prey (Prey.new 2 1 .RIGHT 1)).life 3 3 (fun _ => 0) n).move 3 3).getX =
          (((Entity.predator (Predator.new 1 1 .UP 2)).life 3 3 (fun _ => 0) n).move 3 3).getX ∧
        (((Entity.prey (Prey.new 2 1 .RIGHT 1)).life 3 3 (fun _ => 0) n).move 3 3).getY =
          (((Entity.predator (Predator.new 1 1 .UP 2)).life 3 3 (fun _ => 0) n).move 3 3).getY)) ∧
    (∀ (q : Prey) (p : Predator), p.posX = q.posX → p.posY = q.posY → p.preyEaten = 0 →
      ∃ p2 : Predator, processPredation [Entity.prey q, Entity.predator p] = [Entity.predator p2] ∧
        p2.preyEaten = 1) := by
  have hmem : ∀ n < 10,
      (Entity.prey (Prey.new 2 1 .RIGHT 1)).life 3 3 (fun _ => 0) n
        ∈ simulate 3 3 n endToEndScenario ∧
      (Entity.predator (Predator.new 1 1 .UP 2)).life 3 3 (fun _ => 0) n
        ∈ simulate 3 3 n endToEndScenario := by
    decide
  have hapart : ∀ n < 10,
      ¬ ((((Entity.prey (Prey.new 2 1 .RIGHT 1)).life 3 3 (fun _ => 0) n).move 3 3).getX =
          (((Entity.predator (Predator.new 1 1 .UP 2)).life 3 3 (fun _ => 0) n).move 3 3).getX ∧
        (((Entity.prey (Prey.new 2 1 .RIGHT 1)).life 3 3 (fun _ => 0) n).move 3 3).getY =
          (((Entity.predator (Predator.new 1 1 .UP 2)).life 3 3 (fun _ => 0) n).move 3 3).getY) := by
    decide
  refine ⟨by decide, ?_, hapart, ?_⟩
  · intro n hn _
    exact ⟨(hmem n hn).1, (hmem n hn).2, fun hshare => absurd hshare (hapart n hn)⟩
  · intro q p hx hy h0
    refine ⟨p.eat, processPredation_pair q p hx hy, ?_⟩
    simp [Predator.eat, h0]

/-! ## Construction and insertion -/

/-- Claim C14 fails on the code: on a 3x3 grid a prey at (5,5), which is out of range, is
inserted by `addAnimal`, and the population is not left unchanged. -/
theorem addAnimal_accepts_out_of_range :
    (Entity.prey (Prey.new 5 5 .UP 1)).inBounds 3 3 = false ∧
    ((GameSimulation.new 3 3).addAnimal (Entity.prey (Prey.new 5 5 .UP 1))).animals
      = [Entity.prey (Prey.new 5 5 .UP 1)] ∧
    ((GameSimulation.new 3 3).addAnimal (Entity.prey (Prey.new 5 5 .UP 1))).animals
      ≠ (GameSimulation.new 3 3).animals := by
  decide

/-- Claim C14 as amended: for every simulation and every animal, whatever its position,
`addAnimal` appends the animal, unchanged, at the end of the population and keeps the
size of the grid; it never fails, and a position out of range is neither rejected nor
wrapped into range. -/
theorem addAnimal_appends (sim : GameSimulation) (animal : Entity) :
    (sim.addAnimal animal).animals = sim.animals ++ [animal] ∧
    (sim.addAnimal animal).width = sim.width ∧
    (sim.addAnimal animal).height = sim.height ∧
    animal ∈ (sim.addAnimal animal).animals ∧
    (sim.addAnimal animal).animals.length = sim.animals.length + 1 := by
  refine ⟨rfl, rfl, rfl, ?_, ?_⟩
  · simp [GameSimulation.addAnimal]
  · simp [GameSimulation.addAnimal]

/-- Claim C15 fails on the code: the constructors accept `turnPeriod = 0`, and a prey and
a predator with that `turnPeriod` are in a population. -/
theorem constructors_accept_nonpositive_turnPeriod :
    (Prey.new 0 0 .UP 0).turnPeriod = 0 ∧
    (Predator.new 0 0 .UP (-3)).turnPeriod = -3 ∧
    (((GameSimulation.new 3 3).addAnimal (Entity.prey (Prey.new 0 0 .UP 0))).addAnimal
        (Entity.predator (Predator.new 0 0 .UP (-3)))).animals.map Entity.getTurnPeriod
      = [0, -3] := by
  decide

theorem Animal.move_of_turnPeriod_le_one (w h : Int) (a : Animal) (hk : a.turnPeriod ≤ 1)
    (hc : a.turnCounter = 0) :
    (a.move w h).turnCounter = 0 ∧ (a.move w h).direction = a.direction.successor ∧
    (a.move w h).turnPeriod = a.turnPeriod := by
  obtain ⟨h1, h2⟩ := Animal.move_turn_fields w h a
  have hge : a.turnCounter + 1 ≥ a.turnPeriod := by omega
  rw [if_pos hge] at h1 h2
  exact ⟨h1, h2, Animal.move_turnPeriod w h a⟩

/-- Claim C15 as amended: for every `turnPeriod` `k ≤ 0`, constructing a prey or a
predator succeeds and stores `k`; the animal can be added to a population; and, as with
`turnPeriod` 1, every call of `move` rotates its direction to the cyclic successor and
leaves its turn counter at 0. -/
theorem nonpositive_turnPeriod_turns_every_move (k : Int) (hk : k ≤ 0) (x y : Int)
    (d : Direction) (sim : GameSimulation) (width height : Int) (n : Nat) :
    (Prey.new x y d k).turnPeriod = k ∧
    (Predator.new x y d k).turnPeriod = k ∧
    Entity.prey (Prey.new x y d k) ∈ (sim.addAnimal (Entity.prey (Prey.new x y d k))).animals ∧
    Entity.predator (Predator.new x y d k)
      ∈ (sim.addAnimal (Entity.predator (Predator.new x y d k))).animals ∧
    (((Entity.move width height)^[n] (Entity.prey (Prey.new x y d k))).toAnimal.turnCounter = 0 ∧
      ((Entity.move width height)^[n] (Entity.prey (Prey.new x y d k))).getDirection
        = Direction.successor^[n] d) ∧
    (((Entity.move width height)^[n] (Entity.predator (Predator.new x y d k))).toAnimal.turnCounter
        = 0 ∧
      ((Entity.move width height)^[n] (Entity.predator (Predator.new x y d k))).getDirection
        = Direction.successor^[n] d) := by
  have key : ∀ e : Entity, e.toAnimal.turnPeriod = k → e.toAnimal.turnCounter = 0 →
      ((Entity.move width height)^[n] e).toAnimal.turnCounter = 0 ∧
      ((Entity.move width height)^[n] e).getDirection = Direction.successor^[n] e.getDirection ∧
      ((Entity.move width height)^[n] e).toAnimal.turnPeriod = k := by
    intro e hp hc
    induction n with
    | zero => exact ⟨hc, rfl, hp⟩
    | succ n ih =>
      obtain ⟨i1, i2, i3⟩ := ih
      rw [Function.iterate_succ_apply', Function.iterate_succ_apply']
      obtain ⟨m1, m2, m3⟩ := Animal.move_of_turnPeriod_le_one width height
        ((Entity.move width height)^[n] e).toAnimal (by omega) i1
      simp only [Entity.getDirection, Entity.move_toAnimal] at i2 ⊢
      exact ⟨m1, by rw [m2, i2], by rw [m3, i3]⟩
  refine ⟨rfl, rfl, ?_, ?_, ?_, ?_⟩
  · simp [GameSimulation.addAnimal]
  · simp [GameSimulation.addAnimal]
  · exact ⟨(key (Entity.prey (Prey.new x y d k)) rfl rfl).1,
      (key (Entity.prey (Prey.new x y d k)) rfl rfl).2.1⟩
  · exact ⟨(key (Entity.predator (Predator.new x y d k)) rfl rfl).1,
      (key (Entity.predator (Predator.new x y d k)) rfl rfl).2.1⟩

theorem nonpositive_turnPeriod_turns_every_move_witness :
    ((0 : Int) ≤ 0) ∧
    ((Entity.move 3 3)^[2] (Entity.prey (Prey.new 0 0 .UP 0))).getDirection = .DOWN :=
  ⟨le_refl 0,
   (nonpositive_turnPeriod_turns_every_move 0 (le_refl 0) 0 0 .UP (GameSimulation.new 3 3)
     3 3 2).2.2.2.2.1.2⟩

/-- Claim C16, evaluated on the code where it fails: `Prey::reproduce` returns the new
prey and sets no flag. After the 5th step of `presetScenario` the prey that has just
spawned its first offspring still has `hasReproduced1 = false` and `canReproduce` still
holds for it at that age; after the reproduction phase of its 10th step it still has
`hasReproduced2 = false` and `canReproduce` still holds. -/
theorem prey_flags_never_set :
    (∀ q : Prey, q.reproduce.1 = q) ∧
    (simulate 4 4 5 presetScenario).length = 3 ∧
    (simulate 4 4 5 presetScenario)[0]? = some (Entity.prey
      { posX := 1, posY := 0, direction := .RIGHT, turnPeriod := 100, age := 5, moveSteps := 1,
        turnCounter := 5, hasReproduced1 := false, hasReproduced2 := false }) ∧
    (Entity.prey
      { posX := 1, posY := 0, direction := .RIGHT, turnPeriod := 100, age := 5, moveSteps := 1,
        turnCounter := 5, hasReproduced1 := false, hasReproduced2 := false }).canReproduce = true ∧
    (reproduction (aging (processPredation
        (moveAnimals 4 4 (simulate 4 4 9 presetScenario)))))[0]? = some (Entity.prey
      { posX := 2, posY := 0, direction := .RIGHT, turnPeriod := 100, age := 10, moveSteps := 1,
        turnCounter := 10, hasReproduced1 := false, hasReproduced2 := false }) ∧
    (Entity.prey
      { posX := 2, posY := 0, direction := .RIGHT, turnPeriod := 100, age := 10, moveSteps := 1,
        turnCounter := 10, hasReproduced1 := false, hasReproduced2 := false }).canReproduce = true := by
  refine ⟨fun _ => rfl, ?_, ?_, ?_, ?_, ?_⟩ <;> decide

/-! ## The removal loop on distinct indices -/

theorem removeVictims_of_checked {α : Type} (idxs : List Nat) :
    ∀ (l r : List α), removeVictimsChecked l idxs = some r → removeVictims l idxs = r := by
  induction idxs with
  | nil =>
    intro l r h
    simpa [removeVictimsChecked, removeVictims] using h
  | cons i rest ih =>
    intro l r h
    unfold removeVictimsChecked at h
    split at h
    · exact ih _ _ h
    · cases h

theorem filter_take_append_drop {α : Type} (keep : α → Bool) (D : List α) (k : Nat)
    (hk : ∀ a ∈ D.take k, keep a = true) :
    D.take k ++ (D.drop k).filter keep = D.filter keep := by
  conv_rhs => rw [← List.take_append_drop k D, List.filter_append]
  rw [List.filter_eq_self.2 hk]

theorem removeVictimsChecked_aux {α : Type} (keep : α → Bool) (l : List α) :
    ∀ (idxs : List Nat) (b : Nat),
      idxs.Pairwise (fun a b => a > b) → (∀ j ∈ idxs, j < b) → b ≤ l.length →
      (∀ (j : Nat) (a : α), l[j]? = some a → j < b → (keep a = false ↔ j ∈ idxs)) →
      removeVictimsChecked (l.take b ++ (l.drop b).filter keep) idxs = some (l.filter keep) := by
  intro idxs
  induction idxs with
  | nil =>
    intro b _ _ _ hkeep
    have hk : ∀ a ∈ l.take b, keep a = true := by
      intro a ha
      obtain ⟨j, hj⟩ := List.mem_iff_getElem?.1 ha
      rw [List.getElem?_take] at hj
      by_cases hjb : j < b
      · rw [if_pos hjb] at hj
        have := hkeep j a hj hjb
        cases hka : keep a
        · exact absurd (this.1 hka) (List.not_mem_nil j)
        · rfl
      · rw [if_neg hjb] at hj; cases hj
    simp only [removeVictimsChecked]
    rw [filter_take_append_drop keep l b hk]
  | cons i rest ih =>
    intro b hs hlt hbl hkeep
    rw [List.pairwise_cons] at hs
    obtain ⟨hi_gt, hs_rest⟩ := hs
    have hib : i < b := hlt i (List.mem_cons_self i rest)
    have hil : i < l.length := by omega
    have htl : (l.take b).length = b := by rw [List.length_take]; omega
    have hiM : i < (l.take b ++ (l.drop b).filter keep).length := by
      rw [List.length_append, htl]; omega
    unfold removeVictimsChecked
    rw [if_pos hiM, List.eraseIdx_append_of_lt_length (by omega),
      List.eraseIdx_eq_take_drop_succ, List.take_take, Nat.min_eq_left (Nat.le_of_lt hib),
      List.append_assoc]
    have hki : keep l[i] = false :=
      (hkeep i l[i] (List.getElem?_eq_getElem hil) hib).2 (List.mem_cons_self i rest)
    have hmid : List.drop (i + 1) (List.take b l) ++ (l.drop b).filter keep
        = (l.drop i).filter keep := by
      rw [List.drop_eq_getElem_cons hil, List.filter_cons, hki]
      simp only [Bool.false_eq_true, if_false]
      have h1 : List.drop (i + 1) (List.take b l) = (l.drop (i + 1)).take (b - (i + 1)) := by
        rw [List.drop_take]
      have h2 : l.drop b = (l.drop (i + 1)).drop (b - (i + 1)) := by
        rw [List.drop_drop]
        congr 1
        omega
      rw [h1, h2]
      apply filter_take_append_drop
      intro a ha
      obtain ⟨j, hj⟩ := List.mem_iff_getElem?.1 ha
      rw [List.getElem?_take] at hj
      by_cases hjb : j < b - (i + 1)
      · rw [if_pos hjb, List.getElem?_drop] at hj
        have := hkeep (i + 1 + j) a hj (by omega)
        cases hka : keep a
        · rcases List.mem_cons.1 (this.1 hka) with h3 | h3
          · omega
          · have := hi_gt _ h3
            omega
        · rfl
      · rw [if_neg hjb] at hj; cases hj
    rw [hmid]
    refine ih i hs_rest (fun j hj => hi_gt j hj) (Nat.le_of_lt hil) ?_
    intro j a hja hji
    rw [hkeep j a hja (by omega)]
    constructor
    · intro hm
      rcases List.mem_cons.1 hm with h3 | h3
      · omega
      · exact h3
    · intro hm
      exact List.mem_cons_of_mem i hm

theorem removeVictimsChecked_eq_filter {α : Type} (keep : α → Bool) (l : List α)
    (idxs : List Nat) (hs : idxs.Pairwise (fun a b => a > b)) (hlt : ∀ j ∈ idxs, j < l.length)
    (hkeep : ∀ (j : Nat) (a : α), l[j]? = some a → (keep a = false ↔ j ∈ idxs)) :
    removeVictimsChecked l idxs = some (l.filter keep) := by
  have h := removeVictimsChecked_aux keep l idxs l.length hs hlt (le_refl _)
    (fun j a hja _ => hkeep j a hja)
  simpa using h

theorem index_unique_of_countP_le_one {α : Type} (p : α → Bool) (l : List α)
    (h : l.countP p ≤ 1) :
    ∀ (i j : Nat) (a b : α), l[i]? = some a → l[j]? = some b → p a = true → p b = true →
      i = j := by
  induction l with
  | nil =>
    intro i j a b hi
    simp at hi
  | cons x xs ih =>
    intro i j a b hi hj ha hb
    have hpos : ∀ (k : Nat) (c : α), xs[k]? = some c → p c = true → 0 < xs.countP p := by
      intro k c hk hc
      exact List.countP_pos_iff.2 ⟨c, List.mem_iff_getElem?.2 ⟨k, hk⟩, hc⟩
    rw [List.countP_cons] at h
    cases i with
    | zero =>
      cases j with
      | zero => rfl
      | succ j =>
        exfalso
        simp only [List.getElem?_cons_zero, Option.some.injEq] at hi
        simp only [List.getElem?_cons_succ] at hj
        have := hpos j b hj hb
        rw [hi, if_pos ha] at h
        omega
    | succ i =>
      cases j with
      | zero =>
        exfalso
        simp only [List.getElem?_cons_zero, Option.some.injEq] at hj
        simp only [List.getElem?_cons_succ] at hi
        have := hpos i a hi ha
        rw [hj, if_pos hb] at h
        omega
      | succ j =>
        simp only [List.getElem?_cons_succ] at hi hj
        have hxs : xs.countP p ≤ 1 := by omega
        rw [ih hxs i j a b hi hj ha hb]

theorem hitsOf_nodup (animals : List Entity) (i : Nat) : (hitsOf animals i).Nodup := by
  unfold hitsOf
  cases animals[i]? with
  | none => exact List.nodup_nil
  | some p =>
    simp only
    split
    · exact (List.nodup_range _).filter _
    · exact List.nodup_nil

theorem markVictims_snd_nodup (animals : List Entity)
    (hone : ∀ v ∈ animals, v.isPredator = false →
      animals.countP (fun p => p.isPredator && p.catches v) ≤ 1) :
    (markVictims animals).2.Nodup := by
  rw [markVictims_snd, List.nodup_flatMap]
  refine ⟨fun i _ => hitsOf_nodup animals i, ?_⟩
  refine (List.nodup_range animals.length).imp ?_
  intro i1 i2 hne
  simp only [Function.onFun]
  rw [List.disjoint_left]
  intro j h1 h2
  obtain ⟨p1, v1, hp1, hpred1, hv1, hc1⟩ := (mem_hitsOf animals i1 j).1 h1
  obtain ⟨p2, v2, hp2, hpred2, hv2, hc2⟩ := (mem_hitsOf animals i2 j).1 h2
  rw [hv1, Option.some.injEq] at hv2
  subst hv2
  have hvprey : v1.isPredator = false := by
    simp only [Entity.catches, Bool.and_eq_true, Bool.not_eq_true'] at hc1
    exact hc1.1
  have hcount := hone v1 (List.mem_iff_getElem?.2 ⟨j, hv1⟩) hvprey
  exact hne (index_unique_of_countP_le_one _ animals hcount i1 i2 p1 p2 hp1 hp2
    (by simp [hpred1, hc1]) (by simp [hpred2, hc2]))

theorem sortGreater_strict (idxs : List Nat) (hn : idxs.Nodup) :
    (sortGreater idxs).Pairwise (fun a b => a > b) := by
  have h1 := sortGreater_pairwise idxs
  have h2 : (sortGreater idxs).Nodup :=
    (List.perm_insertionSort (fun a b : Nat => a ≥ b) idxs).nodup_iff.2 hn
  refine (h1.and h2).imp ?_
  intro a b hab
  have := hab.1
  have := hab.2
  omega

theorem isVictim_eq_false_iff (animals : List Entity) (j : Nat) (a : Entity)
    (ha : (markVictims animals).1[j]? = some a) :
    (!isVictim animals a) = false ↔ j ∈ sortGreater (markVictims animals).2 := by
  rw [mem_sortGreater, mem_markVictims_snd]
  rw [markVictims_getElem?] at ha
  cases hv : animals[j]? with
  | none => rw [hv] at ha; cases ha
  | some v =>
    rw [hv, Option.map_some', Option.some.injEq] at ha
    subst ha
    simp only [isVictim, Bool.not_eq_false', List.any_eq_true, Bool.and_eq_true,
      Entity.catches_eatTimes_right]
    constructor
    · rintro ⟨p, hp, hpred, hc⟩
      obtain ⟨i, hi⟩ := List.mem_iff_getElem?.1 hp
      exact ⟨i, p, v, hi, hpred, rfl, hc⟩
    · rintro ⟨i, p, v2, hi, hpred, hv2, hc⟩
      rw [Option.some.injEq] at hv2
      subst hv2
      exact ⟨p, List.mem_iff_getElem?.2 ⟨i, hi⟩, hpred, hc⟩

/-- Claim C17: for every population in which no prey shares its cell with two or more
predators, the indices that `processPredation` collects are pairwise distinct, every
`erase` of the removal loop is at an index smaller than the current size of the vector,
and the result is the population after the marking pass (the input animals at their
indices, the predators credited) with exactly the prey that share a cell with a predator
deleted, the other animals in their order. -/
theorem processPredation_without_shared_prey (animals : List Entity)
    (hone : ∀ v ∈ animals, v.isPredator = false →
      animals.countP (fun p => p.isPredator && p.catches v) ≤ 1) :
    (markVictims animals).2.Nodup ∧
    processPredationChecked animals =
      some ((markVictims animals).1.filter (fun v => !isVictim animals v)) ∧
    processPredation animals = (markVictims animals).1.filter (fun v => !isVictim animals v) ∧
    (markVictims animals).1.length = animals.length ∧
    (∀ i : Nat, (markVictims animals).1[i]? =
      (animals[i]?).map (fun e => e.eatTimes (hitsOf animals i).length)) := by
  have hnd := markVictims_snd_nodup animals hone
  have hchk : processPredationChecked animals =
      some ((markVictims animals).1.filter (fun v => !isVictim animals v)) := by
    unfold processPredationChecked
    exact removeVictimsChecked_eq_filter (fun v => !isVictim animals v) _ _
      (sortGreater_strict _ hnd)
      (fun j hj => markVictims_snd_lt animals j ((mem_sortGreater _ j).1 hj))
      (fun j a ha => isVictim_eq_false_iff animals j a ha)
  refine ⟨hnd, hchk, ?_, markVictims_length animals, markVictims_getElem? animals⟩
  unfold processPredation
  exact removeVictims_of_checked _ _ _ hchk

theorem processPredation_without_shared_prey_witness :
    (∀ v ∈ moveAnimals 3 3 [Entity.prey (Prey.new 1 2 .RIGHT 1), Entity.prey (Prey.new 1 1 .UP 2),
          Entity.predator (Predator.new 0 2 .RIGHT 2)],
      v.isPredator = false →
      (moveAnimals 3 3 [Entity.prey (Prey.new 1 2 .RIGHT 1), Entity.prey (Prey.new 1 1 .UP 2),
          Entity.predator (Predator.new 0 2 .RIGHT 2)]).countP
        (fun p => p.isPredator && p.catches v) ≤ 1) ∧
    (processPredation (moveAnimals 3 3 [Entity.prey (Prey.new 1 2 .RIGHT 1),
        Entity.prey (Prey.new 1 1 .UP 2), Entity.predator (Predator.new 0 2 .RIGHT 2)])).map cellOf
      = [(false, 1, 0), (true, 2, 2)] :=
  ⟨by decide, by
    rw [(processPredation_without_shared_prey _ (by decide)).2.2.1]
    decide⟩

/-! ## Prey and predators after a step -/

theorem simulateStep_no_victim (w h : Int) (pop : List Entity) :
    ∀ v ∈ simulateStep w h pop, ∀ p ∈ simulateStep w h pop,
      p.isPredator = true → p.catches v = false := by
  intro v hv p hp hpred
  obtain ⟨v1, hv1, cv⟩ := mem_after_predation_cell _ v hv
  obtain ⟨p1, hp1, cp⟩ := mem_after_predation_cell _ p hp
  obtain ⟨p0, hp0, cp0⟩ := mem_processPredation_cell _ p1 hp1
  have hpred0 : p0.isPredator = true := by
    have := cp.trans cp0
    simp only [cellOf, Prod.mk.injEq] at this
    rw [← this.1]
    exact hpred
  rw [catches_congr (cp.trans cp0) cv]
  exact processPredation_no_victim _ v1 hv1 p0 hp0 hpred0

theorem preyOn_pos_iff (animals : List Entity) (x y : Int) :
    0 < preyOn animals x y ↔
      ∃ v ∈ animals, v.isPredator = false ∧ v.getX = x ∧ v.getY = y := by
  simp [preyOn, List.countP_pos_iff]

theorem predatorsOn_pos_iff (animals : List Entity) (x y : Int) :
    0 < predatorsOn animals x y ↔
      ∃ p ∈ animals, p.isPredator = true ∧ p.getX = x ∧ p.getY = y := by
  simp [predatorsOn, List.countP_pos_iff]

theorem simulateStep_cells_unmixed (w h : Int) (pop : List Entity) (x y : Int) :
    preyOn (simulateStep w h pop) x y = 0 ∨ predatorsOn (simulateStep w h pop) x y = 0 := by
  by_contra hne
  simp only [not_or] at hne
  obtain ⟨v, hv, hvprey, hvx, hvy⟩ :=
    (preyOn_pos_iff _ x y).1 (Nat.pos_of_ne_zero hne.1)
  obtain ⟨p, hp, hpred, hpx, hpy⟩ :=
    (predatorsOn_pos_iff _ x y).1 (Nat.pos_of_ne_zero hne.2)
  have := simulateStep_no_victim w h pop v hv p hp hpred
  simp [Entity.catches, hvprey, hvx, hvy, hpx, hpy] at this

/-- Claim C18: for every population, with an `erase` at an index out of range modelled as
leaving the vector unchanged, no prey of the population after `simulateStep` stands on
the cell of a predator of that population. So every cell holds no prey or no predator;
and when the population started inside a grid with `width ≥ 1` and `height ≥ 1`, the
table that `printField` computes after the step has in every cell the number of prey
there, or minus the number of predators there, and a cell is 0 only when it is empty. -/
theorem simulateStep_separates_species (width height : Int) (pop : List Entity) :
    (∀ v ∈ simulateStep width height pop, ∀ p ∈ simulateStep width height pop,
      p.isPredator = true → v.isPredator = false →
      ¬ (p.getX = v.getX ∧ p.getY = v.getY)) ∧
    (∀ x y : Int, preyOn (simulateStep width height pop) x y = 0 ∨
      predatorsOn (simulateStep width height pop) x y = 0) ∧
    (1 ≤ width → 1 ≤ height →
      (∀ e ∈ pop, 0 ≤ e.getX ∧ e.getX < width ∧ 0 ≤ e.getY ∧ e.getY < height) →
      ∃ field, printFieldCounts width height (simulateStep width height pop) = some field ∧
        ∀ i j : Nat, i < width.toNat → j < height.toNat →
          (cellAt field i j = some (preyOn (simulateStep width height pop) i j : Int) ∧
              predatorsOn (simulateStep width height pop) i j = 0 ∨
            cellAt field i j = some (-(predatorsOn (simulateStep width height pop) i j : Int)) ∧
              preyOn (simulateStep width height pop) i j = 0) ∧
          (cellAt field i j = some 0 ↔
            preyOn (simulateStep width height pop) i j = 0 ∧
              predatorsOn (simulateStep width height pop) i j = 0)) := by
  refine ⟨?_, simulateStep_cells_unmixed width height pop, ?_⟩
  · intro v hv p hp hpred hprey hcell
    have := simulateStep_no_victim width height pop v hv p hp hpred
    simp [Entity.catches, hprey, hcell] at this
  · intro hw hh hpop
    have hin : ∀ e ∈ pop, e.inBounds width height = true := by
      intro e he
      simpa [Entity.inBounds] using hpop e he
    obtain ⟨f, hf, _, hc⟩ := printFieldCounts_spec width height hw hh _
      (simulateStep_inBounds width height hw hh pop hin)
    refine ⟨f, hf, fun i j hi hj => ?_⟩
    rw [hc i j hi hj]
    rcases simulateStep_cells_unmixed width height pop i j with h0 | h0
    · rw [h0]
      refine ⟨Or.inr ⟨by simp, rfl⟩, ?_⟩
      simp only [Option.some.injEq, Nat.cast_zero, zero_sub, neg_eq_zero, Nat.cast_eq_zero,
        true_and]
    · rw [h0]
      refine ⟨Or.inl ⟨by simp, rfl⟩, ?_⟩
      simp only [Option.some.injEq, Nat.cast_zero, sub_zero, Nat.cast_eq_zero, and_true]

theorem simulateStep_separates_species_witness :
    (1 : Int) ≤ 4 ∧
    (∀ e ∈ twoHuntersPopulation, 0 ≤ e.getX ∧ e.getX < 4 ∧ 0 ≤ e.getY ∧ e.getY < 4) ∧
    (∃ field, printFieldCounts 4 4 (simulateStep 4 4 twoHuntersPopulation) = some field ∧
      ∀ i j : Nat, i < (4 : Int).toNat → j < (4 : Int).toNat →
        (cellAt field i j = some (preyOn (simulateStep 4 4 twoHuntersPopulation) i j : Int) ∧
            predatorsOn (simulateStep 4 4 twoHuntersPopulation) i j = 0 ∨
          cellAt field i j = some (-(predatorsOn (simulateStep 4 4 twoHuntersPopulation) i j : Int)) ∧
            preyOn (simulateStep 4 4 twoHuntersPopulation) i j = 0) ∧
        (cellAt field i j = some 0 ↔
          preyOn (simulateStep 4 4 twoHuntersPopulation) i j = 0 ∧
            predatorsOn (simulateStep 4 4 twoHuntersPopulation) i j = 0)) :=
  ⟨by decide, by decide,
   (simulateStep_separates_species 4 4 twoHuntersPopulation).2.2 (by decide) (by decide)
     (by decide)⟩

/-! ## The reproductions of a predator -/

theorem withinQuota_move (w h : Int) (e : Entity) :
    (e.move w h).withinQuota = e.withinQuota := by
  cases e <;> rfl

theorem withinQuota_increaseAge (e : Entity) : e.increaseAge.withinQuota = e.withinQuota := by
  cases e <;> rfl

theorem withinQuota_eat (e : Entity) (he : e.withinQuota = true) : e.eat.withinQuota = true := by
  cases e with
  | prey q => rfl
  | predator p =>
    simp only [Entity.withinQuota, Entity.eat, Predator.eat, Predator.priorReproductions,
      decide_eq_true_eq] at he ⊢
    omega

theorem withinQuota_eatTimes (n : Nat) (e : Entity) (he : e.withinQuota = true) :
    (e.eatTimes n).withinQuota = true := by
  induction n with
  | zero => exact he
  | succ n ih => exact withinQuota_eat _ ih

theorem withinQuota_afterReproduce (e : Entity) (he : e.withinQuota = true) :
    e.afterReproduce.withinQuota = true := by
  unfold Entity.afterReproduce
  split
  · rename_i hc
    cases e with
    | prey q => rfl
    | predator p =>
      simp only [Entity.canReproduce, Predator.canReproduce, decide_eq_true_eq] at hc
      simp only [Entity.withinQuota, Entity.reproduce, Predator.reproduce,
        Predator.priorReproductions, decide_eq_true_eq]
      omega
  · exact he

theorem withinQuota_offspring (e : Entity) : e.reproduce.2.withinQuota = true := by
  cases e <;> rfl

theorem simulateStep_withinQuota (w h : Int) (pop : List Entity)
    (hpop : ∀ e ∈ pop, e.withinQuota = true) :
    ∀ e ∈ simulateStep w h pop, e.withinQuota = true := by
  have hL : ∀ e ∈ processPredation (moveAnimals w h pop), e.withinQuota = true := by
    intro e he
    obtain ⟨e0, h0, n, rfl⟩ := mem_markVictims_fst _ e
      ((processPredation_sublist _).subset he)
    simp only [moveAnimals, List.mem_map] at h0
    obtain ⟨a, ha, rfl⟩ := h0
    apply withinQuota_eatTimes
    rw [withinQuota_move]
    exact hpop a ha
  intro e he
  have h1 := ((mem_extinction _ e).1 he).1
  rw [reproduction_eq, List.mem_append] at h1
  rcases h1 with h1 | h1
  · simp only [aging, List.map_map, List.mem_map, Function.comp] at h1
    obtain ⟨e1, hm, rfl⟩ := h1
    apply withinQuota_afterReproduce
    rw [withinQuota_increaseAge]
    exact hL e1 hm
  · simp only [aging, List.mem_map, List.mem_filter] at h1
    obtain ⟨e2, _, rfl⟩ := h1
    exact withinQuota_offspring e2

theorem simulate_withinQuota (w h : Int) (pop : List Entity)
    (hpop : ∀ e ∈ pop, e.withinQuota = true) (n : Nat) :
    ∀ e ∈ simulate w h n pop, e.withinQuota = true := by
  induction n with
  | zero => exact hpop
  | succ n ih => exact simulateStep_withinQuota w h _ ih

theorem reproductionLoop_single (e : Entity) :
    (reproductionLoop [e]).2 = if e.canReproduce then [e.reproduce.2] else [] := by
  simp only [reproductionLoop]
  split <;> rfl

theorem withinQuota_lifeStep (w h : Int) (m : Nat) (e : Entity) (he : e.withinQuota = true) :
    (e.lifeStep w h m).withinQuota = true := by
  unfold Entity.lifeStep
  apply withinQuota_afterReproduce
  rw [withinQuota_increaseAge]
  apply withinQuota_eatTimes
  rw [withinQuota_move]
  exact he

/-- The counters of a predator built by the constructor after `m` steps of its life: the
number of its reproductions is the number of new animals the reproduction phases created
for it, and its consumed count is the number of prey the predation phases credited it
with. -/
theorem predator_life_counters (w h x y : Int) (d : Direction) (k : Int) (eats : Nat → Nat)
    (m : Nat) :
    ∃ p : Predator,
      (Entity.predator (Predator.new x y d k)).life w h eats m = Entity.predator p ∧
      p.priorReproductions
        = ((Entity.spawned w h eats m (Entity.predator (Predator.new x y d k)) : Nat) : Int) ∧
      p.preyEaten = ((List.range m).map (fun i => (eats i : Int))).sum ∧
      2 * p.priorReproductions ≤ p.preyEaten := by
  induction m with
  | zero =>
    refine ⟨Predator.new x y d k, rfl, rfl, ?_, ?_⟩
    · simp [Predator.new]
    · simp [Predator.new, Predator.priorReproductions]
  | succ m ih =>
    obtain ⟨p, hp, hr, hc, hq⟩ := ih
    simp only [Entity.life, Entity.spawned, hp, Entity.lifeStep, Entity.move,
      Entity.eatTimes_predator, Entity.increaseAge, reproductionLoop_single,
      List.range_succ, List.map_append, List.sum_append, List.map_cons, List.map_nil,
      List.sum_cons, List.sum_nil, add_zero, Entity.afterReproduce]
    by_cases hcan : (Entity.predator
        { toAnimal := (p.toAnimal.move w h).increaseAge,
          preyEaten := p.preyEaten + (eats m : Int),
          reproduced := p.reproduced }).canReproduce = true
    · have hcan2 := hcan
      simp only [if_pos hcan]
      simp only [Entity.canReproduce, Predator.canReproduce, decide_eq_true_eq] at hcan2
      refine ⟨_, rfl, ?_, ?_, ?_⟩
      · simp only [Entity.reproduce, Predator.reproduce, Predator.priorReproductions,
          List.length_singleton] at hr ⊢
        push_cast
        omega
      · simp only [Entity.reproduce, Predator.reproduce, hc]
      · simp only [Entity.reproduce, Predator.reproduce, Predator.priorReproductions]
        omega
    · simp only [if_neg hcan]
      refine ⟨_, rfl, ?_, ?_, ?_⟩
      · simp only [Predator.priorReproductions, List.length_nil] at hr ⊢
        push_cast
        omega
      · simp only [hc]
      · simp only [Predator.priorReproductions] at hq ⊢
        have : (0 : Int) ≤ (eats m : Int) := Int.ofNat_nonneg _
        omega

theorem life_present (w h : Int) (pop : List Entity) (e0 : Entity) (eats : Nat → Nat)
    (n : Nat) (hn : (n : Int) < if e0.isPredator then 20 else 10)
    (hage0 : e0.toAnimal.age = 0) (h0 : e0 ∈ pop)
    (hsurv : ∀ i < n, sparedByPredation w h pop eats e0 i) :
    (∀ j ≤ n, e0.life w h eats j ∈ simulate w h j pop) ∧
    (∀ i < n, ((e0.life w h eats i).move w h).eatTimes (eats i) ∈
      processPredation (moveAnimals w h (simulate w h i pop))) := by
  have hpresent : ∀ j ≤ n, e0.life w h eats j ∈ simulate w h j pop := by
    intro j
    induction j with
    | zero => intro _; exact h0
    | succ i ih =>
      intro hj
      have hs := hsurv i (by omega) (ih (by omega))
      have hd : (e0.life w h eats (i + 1)).isDead = false := by
        rw [Entity.isDead_eq, Entity.life_age, hage0, zero_add, Entity.life_isPredator]
        simp only [decide_eq_false_iff_not, not_le, ge_iff_le]
        have : ((i + 1 : Nat) : Int) ≤ (n : Int) := by exact_mod_cast hj
        omega
      exact (lifeStep_mem w h _ _ _ hs).2 hd
  exact ⟨hpresent, fun i hi => hsurv i hi (hpresent i (by omega))⟩

/-- Claim C19: in `src/main.cpp`, in every population reached by any number of steps
from a population whose predators are as the constructor builds them (consumed count 0,
no reproduction behind them), every predator has twice the number of its reproductions
at most equal to its consumed count. For a predator built by the constructor, after any
number `m` of steps of its life the number of its reproductions is the number of new
animals the reproduction phases of those steps created for it, its consumed count is the
number of prey the predation phases credited it with, so it has spawned at most
`preyEaten / 2` (rounded down) offspring, and at most one in each step. In a run in
which no predation phase removes the predator, the tracked state is in the population
after each of its steps, each step's reproduction phase finds it in the population and
returns the population with just those new animals added for it, and a new animal it
creates is in the population after the step. -/
theorem predator_reproductions_bounded (width height : Int) (pop : List Entity)
    (hnew : ∀ p : Predator, Entity.predator p ∈ pop →
      p.preyEaten = 0 ∧ p.priorReproductions = 0)
    (n : Nat) :
    (∀ p : Predator, Entity.predator p ∈ simulate width height n pop →
      2 * p.priorReproductions ≤ p.preyEaten ∧ p.priorReproductions ≤ p.preyEaten / 2) ∧
    (∀ (x y : Int) (d : Direction) (k : Int) (eats : Nat → Nat) (m : Nat),
      (∃ p : Predator,
        (Entity.predator (Predator.new x y d k)).life width height eats m = Entity.predator p ∧
        p.priorReproductions
          = ((Entity.spawned width height eats m (Entity.predator (Predator.new x y d k)) : Nat)
              : Int) ∧
        p.preyEaten = ((List.range m).map (fun i => (eats i : Int))).sum ∧
        ((Entity.spawned width height eats m (Entity.predator (Predator.new x y d k)) : Nat) : Int)
          ≤ p.preyEaten / 2) ∧
      Entity.spawned width height eats (m + 1) (Entity.predator (Predator.new x y d k))
        ≤ Entity.spawned width height eats m (Entity.predator (Predator.new x y d k)) + 1) ∧
    (∀ (x y : Int) (d : Direction) (k : Int) (eats : Nat → Nat),
      Entity.predator (Predator.new x y d k) ∈ pop → n ≤ 19 →
      (∀ i < n, sparedByPredation width height pop eats
        (Entity.predator (Predator.new x y d k)) i) →
      (Entity.predator (Predator.new x y d k)).life width height eats n
        ∈ simulate width height n pop ∧
      ∀ i < n,
        ((((Entity.predator (Predator.new x y d k)).life width height eats i).move
            width height).eatTimes (eats i)).increaseAge
          ∈ aging (processPredation (moveAnimals width height (simulate width height i pop))) ∧
        (∀ pre post : List Entity,
          reproduction (pre ++
            ((((Entity.predator (Predator.new x y d k)).life width height eats i).move
              width height).eatTimes (eats i)).increaseAge :: post) =
          (pre ++
            ((((Entity.predator (Predator.new x y d k)).life width height eats i).move
              width height).eatTimes (eats i)).increaseAge :: post).map Entity.afterReproduce ++
          ((reproductionLoop pre).2 ++
            (reproductionLoop
              [((((Entity.predator (Predator.new x y d k)).life width height eats i).move
                width height).eatTimes (eats i)).increaseAge]).2 ++
            (reproductionLoop post).2)) ∧
        (∀ c ∈ (reproductionLoop
            [((((Entity.predator (Predator.new x y d k)).life width height eats i).move
              width height).eatTimes (eats i)).increaseAge]).2,
          c ∈ simulate width height (i + 1) pop)) ∧
    (∀ e : Entity, (reproductionLoop [e]).2.length ≤ 1) := by
  have hpop : ∀ e ∈ pop, e.withinQuota = true := by
    intro e he
    cases e with
    | prey q => rfl
    | predator p =>
      obtain ⟨h1, h2⟩ := hnew p he
      simp only [Entity.withinQuota, decide_eq_true_eq]
      omega
  have hsingle : ∀ e : Entity, (reproductionLoop [e]).2.length ≤ 1 := by
    intro e
    rw [reproductionLoop_single]
    split <;> simp
  refine ⟨?_, ?_, ?_, hsingle⟩
  · intro p hp
    have := simulate_withinQuota width height pop hpop n _ hp
    simp only [Entity.withinQuota, decide_eq_true_eq] at this
    constructor
    · exact this
    · omega
  · intro x y d k eats m
    obtain ⟨p, hp, hr, hc, hq⟩ := predator_life_counters width height x y d k eats m
    refine ⟨⟨p, hp, hr, hc, ?_⟩, ?_⟩
    · rw [← hr]
      omega
    · simp only [Entity.spawned]
      have := hsingle ((((Entity.predator (Predator.new x y d k)).life width height eats m).move
        width height).eatTimes (eats m)).increaseAge
      omega
  · intro x y d k eats h0 hn hsurv
    obtain ⟨hpresent, hafter⟩ := life_present width height pop
      (Entity.predator (Predator.new x y d k)) eats n
      (by simp only [Entity.isPredator, if_true]; omega) rfl h0 hsurv
    refine ⟨hpresent n (le_refl n), fun i hi => ?_⟩
    have hq := mem_aging_of_mem _ _ (hafter i hi)
    refine ⟨hq, ?_, ?_⟩
    · intro pre post
      rw [reproduction_append_cons, reproductionLoop_single]
    · intro c hc
      rw [reproductionLoop_single] at hc
      split at hc
      · rename_i hcan
        rw [List.mem_singleton] at hc
        subst hc
        show _ ∈ simulateStep width height (simulate width height i pop)
        unfold simulateStep
        rw [mem_extinction]
        exact ⟨mem_reproduction_offspring _ _ hq hcan, Entity.isDead_offspring _⟩
      · exact absurd hc (List.not_mem_nil c)

theorem predator_reproductions_bounded_witness :
    (∀ p : Predator, Entity.predator p ∈ twoPreyOneHunter →
      p.preyEaten = 0 ∧ p.priorReproductions = 0) ∧
    (∀ i < 2, sparedByPredation 4 4 twoPreyOneHunter (fun i => if i = 0 then 2 else 0)
      (Entity.predator (Predator.new 0 0 .DOWN 1)) i) ∧
    Entity.spawned 4 4 (fun i => if i = 0 then 2 else 0) 2
      (Entity.predator (Predator.new 0 0 .DOWN 1)) = 1 ∧
    (Entity.predator (Predator.new 0 0 .DOWN 1)).life 4 4 (fun i => if i = 0 then 2 else 0) 2
      ∈ simulate 4 4 2 twoPreyOneHunter ∧
    (∃ p : Predator,
      (Entity.predator (Predator.new 0 0 .DOWN 1)).life 4 4 (fun i => if i = 0 then 2 else 0) 2
        = Entity.predator p ∧
      p.priorReproductions
        = ((Entity.spawned 4 4 (fun i => if i = 0 then 2 else 0) 2
            (Entity.predator (Predator.new 0 0 .DOWN 1)) : Nat) : Int) ∧
      p.preyEaten = ((List.range 2).map (fun i => (((if i = 0 then 2 else 0 : Nat)) : Int))).sum ∧
      ((Entity.spawned 4 4 (fun i => if i = 0 then 2 else 0) 2
          (Entity.predator (Predator.new 0 0 .DOWN 1)) : Nat) : Int) ≤ p.preyEaten / 2) :=
  ⟨by
    intro p hp
    simp [twoPreyOneHunter] at hp
    subst hp
    exact ⟨rfl, rfl⟩,
   by unfold sparedByPredation; decide,
   by decide,
   ((predator_reproductions_bounded 4 4 twoPreyOneHunter (by
      intro p hp
      simp [twoPreyOneHunter] at hp
      subst hp
      exact ⟨rfl, rfl⟩) 2).2.2.1 0 0 .DOWN 1 (fun i => if i = 0 then 2 else 0)
      (by decide) (by decide) (by unfold sparedByPredation; decide)).1,
   ((predator_reproductions_bounded 4 4 twoPreyOneHunter (by
      intro p hp
      simp [twoPreyOneHunter] at hp
      subst hp
      exact ⟨rfl, rfl⟩) 2).2.1 0 0 .DOWN 1 (fun i => if i = 0 then 2 else 0) 2).1⟩

/-! ## The two variants -/

theorem toA2_move (w h : Int) (e : Entity) : (e.move w h).toA2 = (e.toA2).move w h := by
  cases e <;> rfl

theorem toA2_increaseAge (e : Entity) : e.increaseAge.toA2 = (e.toA2).increaseAge := by
  cases e <;> rfl

theorem toA2_eat (e : Entity) : e.eat.toA2 = (e.toA2).eat := by
  cases e <;> rfl

theorem toA2_isPredator (e : Entity) : (e.toA2).isPredator = e.isPredator := by
  cases e <;> rfl

theorem toA2_getX (e : Entity) : (e.toA2).getX = e.getX := by
  cases e <;> rfl

theorem toA2_getY (e : Entity) : (e.toA2).getY = e.getY := by
  cases e <;> rfl

theorem toA2_isDead (e : Entity) : (e.toA2).isDead = e.isDead := by
  cases e <;> rfl

theorem toA2_consumed (e : Entity) : (e.toA2).consumed = e.consumed := by
  cases e <;> rfl

theorem toA2_afterReproduce (e : Entity) : e.afterReproduce.toA2 = e.toA2 := by
  unfold Entity.afterReproduce
  split
  · cases e <;> rfl
  · rfl

theorem toA2_offspring (e : Entity) : e.reproduce.2.toA2 = (e.toA2).reproduce := by
  cases e <;> rfl

theorem toA2_canReproduce (e : Entity) (h1 : e.noPriorReproduction = true) :
    (e.toA2).canReproduce = e.canReproduce := by
  cases e with
  | prey q => rfl
  | predator p =>
    simp only [Entity.noPriorReproduction, decide_eq_true_eq] at h1
    simp only [Entity.toA2, A2.Entity.canReproduce, A2.Predator.canReproduce,
      Entity.canReproduce, Predator.canReproduce, h1, mul_one]

theorem toA2_mainOfA2 (e : A2.Entity) : (mainOfA2 e).toA2 = e := by
  cases e <;> rfl

theorem foldl_commute {σ τ ι : Type} (φ : σ → τ) (f : σ → ι → σ) (g : τ → ι → τ)
    (hfg : ∀ s x, g (φ s) x = φ (f s x)) (xs : List ι) :
    ∀ s, xs.foldl g (φ s) = φ (xs.foldl f s) := by
  induction xs with
  | nil => intro s; rfl
  | cons x xs ih =>
    intro s
    rw [List.foldl_cons, List.foldl_cons, hfg, ih]

theorem markInnerStep_toA2 (i : Nat) (st : List Entity × List Nat) (j : Nat) :
    A2.markInnerStep i (st.1.map Entity.toA2, st.2) j =
      ((markInnerStep i st j).1.map Entity.toA2, (markInnerStep i st j).2) := by
  unfold A2.markInnerStep markInnerStep
  simp only [List.getElem?_map]
  cases st.1[i]? with
  | none => rfl
  | some p =>
    cases st.1[j]? with
    | none => rfl
    | some v =>
      simp only [Option.map_some', toA2_isPredator, toA2_getX, toA2_getY]
      split
      · rfl
      · split
        · simp only [List.map_set, toA2_eat]
        · rfl

theorem markOuterStep_toA2 (st : List Entity × List Nat) (i : Nat) :
    A2.markOuterStep (st.1.map Entity.toA2, st.2) i =
      ((markOuterStep st i).1.map Entity.toA2, (markOuterStep st i).2) := by
  unfold A2.markOuterStep markOuterStep
  simp only [List.getElem?_map, List.length_map]
  cases st.1[i]? with
  | none => rfl
  | some p =>
    simp only [Option.map_some', toA2_isPredator]
    split
    · rfl
    · exact foldl_commute (fun s : List Entity × List Nat => (s.1.map Entity.toA2, s.2))
        (markInnerStep i) (A2.markInnerStep i) (markInnerStep_toA2 i) _ st

theorem markVictims_toA2 (animals : List Entity) :
    A2.markVictims (animals.map Entity.toA2) =
      ((markVictims animals).1.map Entity.toA2, (markVictims animals).2) := by
  unfold A2.markVictims markVictims
  rw [List.length_map]
  exact foldl_commute (fun s : List Entity × List Nat => (s.1.map Entity.toA2, s.2))
    markOuterStep A2.markOuterStep markOuterStep_toA2 _ (animals, [])

theorem removeVictims_map {α β : Type} (f : α → β) (idxs : List Nat) :
    ∀ l : List α, removeVictims (l.map f) idxs = (removeVictims l idxs).map f := by
  induction idxs with
  | nil => intro l; rfl
  | cons i rest ih =>
    intro l
    rw [removeVictims_cons, removeVictims_cons, ← ih]
    congr 1
    apply List.ext_getElem?
    intro n
    simp only [List.getElem?_eraseIdx, List.getElem?_map]
    split <;> rfl

theorem processPredation_toA2 (animals : List Entity) :
    A2.processPredation (animals.map Entity.toA2) = (processPredation animals).map Entity.toA2 := by
  unfold A2.processPredation processPredation
  rw [markVictims_toA2]
  exact removeVictims_map _ _ _

theorem reproductionLoop_a2_eq (animals : List A2.Entity) :
    A2.reproductionLoop animals =
      (animals.filter A2.Entity.canReproduce).map A2.Entity.reproduce := by
  induction animals with
  | nil => rfl
  | cons a rest ih =>
    unfold A2.reproductionLoop
    by_cases hc : a.canReproduce = true
    · simp [hc, ih]
    · simp [hc, ih]

theorem reproduction_toA2 (animals : List Entity)
    (h1 : ∀ e ∈ animals, e.noPriorReproduction = true) :
    A2.reproduction (animals.map Entity.toA2) = (reproduction animals).map Entity.toA2 := by
  unfold A2.reproduction
  rw [reproductionLoop_a2_eq, reproduction_eq, List.map_append, List.map_map, List.map_map,
    List.filter_map, List.map_map]
  have hleft : animals.map Entity.toA2 = animals.map (Entity.toA2 ∘ Entity.afterReproduce) := by
    apply List.map_congr_left
    intro e _
    simp only [Function.comp, toA2_afterReproduce]
  have hfilter : animals.filter (A2.Entity.canReproduce ∘ Entity.toA2)
      = animals.filter Entity.canReproduce := by
    apply List.filter_congr
    intro e he
    simp only [Function.comp, toA2_canReproduce e (h1 e he)]
  have hright : (A2.Entity.reproduce ∘ Entity.toA2)
      = (Entity.toA2 ∘ fun e : Entity => e.reproduce.2) := by
    funext e
    simp only [Function.comp, toA2_offspring]
  rw [← hleft, hfilter, hright]

theorem extinction_toA2 (animals : List Entity) :
    A2.extinction (animals.map Entity.toA2) = (extinction animals).map Entity.toA2 := by
  unfold A2.extinction extinction
  rw [List.filter_map]
  congr 1
  apply List.filter_congr
  intro e _
  simp only [Function.comp, toA2_isDead]

theorem aging_toA2 (animals : List Entity) :
    A2.aging (animals.map Entity.toA2) = (aging animals).map Entity.toA2 := by
  simp only [A2.aging, aging, List.map_map]
  apply List.map_congr_left
  intro e _
  simp only [Function.comp, toA2_increaseAge]

theorem moveAnimals_toA2 (w h : Int) (animals : List Entity) :
    A2.moveAnimals w h (animals.map Entity.toA2) = (moveAnimals w h animals).map Entity.toA2 := by
  simp only [A2.moveAnimals, moveAnimals, List.map_map]
  apply List.map_congr_left
  intro e _
  simp only [Function.comp, toA2_move]

theorem noPriorReproduction_move (w h : Int) (e : Entity) :
    (e.move w h).noPriorReproduction = e.noPriorReproduction := by
  cases e <;> rfl

theorem noPriorReproduction_eat (e : Entity) :
    e.eat.noPriorReproduction = e.noPriorReproduction := by
  cases e <;> rfl

theorem noPriorReproduction_eatTimes (n : Nat) (e : Entity) :
    (e.eatTimes n).noPriorReproduction = e.noPriorReproduction := by
  induction n with
  | zero => rfl
  | succ n ih => simp only [Entity.eatTimes, noPriorReproduction_eat, ih]

theorem noPriorReproduction_increaseAge (e : Entity) :
    e.increaseAge.noPriorReproduction = e.noPriorReproduction := by
  cases e <;> rfl

/-- One step of `src/main.cpp` and one step of `src/main_a2.cpp` agree on a population
whose predators have no reproduction behind them. -/
theorem simulateStep_toA2 (w h : Int) (pop : List Entity)
    (h1 : ∀ e ∈ pop, e.noPriorReproduction = true) :
    A2.simulateStep w h (pop.map Entity.toA2) = (simulateStep w h pop).map Entity.toA2 := by
  unfold A2.simulateStep simulateStep
  rw [moveAnimals_toA2, processPredation_toA2, aging_toA2, reproduction_toA2, extinction_toA2]
  intro e he
  simp only [aging, List.mem_map] at he
  obtain ⟨e1, he1, rfl⟩ := he
  obtain ⟨e0, h0, n, rfl⟩ := mem_markVictims_fst _ e1
    ((processPredation_sublist _).subset he1)
  simp only [moveAnimals, List.mem_map] at h0
  obtain ⟨a, ha, rfl⟩ := h0
  rw [noPriorReproduction_increaseAge, noPriorReproduction_eatTimes, noPriorReproduction_move]
  exact h1 a ha

theorem consumed_a2_move (w h : Int) (e : A2.Entity) : (e.move w h).consumed = e.consumed := by
  cases e <;> rfl

theorem consumed_a2_increaseAge (e : A2.Entity) : e.increaseAge.consumed = e.consumed := by
  cases e <;> rfl

theorem consumed_mainOfA2 (e : A2.Entity) : (mainOfA2 e).consumed = e.consumed := by
  cases e <;> rfl

theorem markVictims_a2_consumed (animals : List A2.Entity) :
    (A2.markVictims animals).1.length = animals.length ∧
    ∀ (i : Nat) (e : A2.Entity), animals[i]? = some e →
      ∃ e2, (A2.markVictims animals).1[i]? = some e2 ∧ e.consumed ≤ e2.consumed := by
  have hl : animals = (animals.map mainOfA2).map Entity.toA2 := by
    rw [List.map_map]
    conv_lhs => rw [← List.map_id animals]
    apply List.map_congr_left
    intro e _
    simp only [id, Function.comp, toA2_mainOfA2]
  have hm := markVictims_toA2 (animals.map mainOfA2)
  rw [← hl] at hm
  rw [hm]
  refine ⟨by simp [markVictims_length], ?_⟩
  intro i e he
  simp only [List.getElem?_map, markVictims_getElem?, he, Option.map_some']
  refine ⟨_, rfl, ?_⟩
  rw [toA2_consumed, ← consumed_mainOfA2 e]
  exact Entity.consumed_eatTimes _ _

/-- Claim C20: the step of `src/main.cpp` and the step of `src/main_a2.cpp` differ only
in when a predator may reproduce. On every population whose predators have no
reproduction behind them, as every predator built by the constructor, one step of
either variant gives the same population in every member that `src/main_a2.cpp` has
(species, position, direction, turn counter, age, consumed count, `turnPeriod`,
`moveSteps`, flags). From `twoPreyOneHunter`, where the predator eats 2 prey in the first
step, the populations agree after one step and differ after two: the predator spawns
again under the constant threshold 2 and not under the threshold 4 of `src/main.cpp`.
In neither variant does a phase of the step lower a consumed count. -/
theorem variants_differ_in_predator_threshold :
    (∀ (width height : Int) (pop : List Entity),
      (∀ p : Predator, Entity.predator p ∈ pop → p.priorReproductions = 0) →
      A2.simulateStep width height (pop.map Entity.toA2)
        = (simulateStep width height pop).map Entity.toA2) ∧
    (∀ (x y : Int) (d : Direction) (k : Int), (Predator.new x y d k).priorReproductions = 0) ∧
    (A2.simulate 4 4 1 (twoPreyOneHunter.map Entity.toA2)
        = (simulate 4 4 1 twoPreyOneHunter).map Entity.toA2 ∧
      (simulate 4 4 1 twoPreyOneHunter).map (fun e => (e.isPredator, e.consumed))
        = [(true, 2), (true, 0)] ∧
      A2.simulate 4 4 2 (twoPreyOneHunter.map Entity.toA2)
        ≠ (simulate 4 4 2 twoPreyOneHunter).map Entity.toA2 ∧
      (simulate 4 4 2 twoPreyOneHunter).map (fun e => (e.isPredator, e.consumed))
        = [(true, 2), (true, 0)] ∧
      (A2.simulate 4 4 2 (twoPreyOneHunter.map Entity.toA2)).map
          (fun e => (e.isPredator, e.consumed))
        = [(true, 2), (true, 0), (true, 0)]) ∧
    (∀ (width height : Int) (animals : List Entity),
      (moveAnimals width height animals).map Entity.consumed = animals.map Entity.consumed ∧
      (markVictims animals).1.length = animals.length ∧
      (∀ (i : Nat) (e : Entity), animals[i]? = some e →
        ∃ e2, (markVictims animals).1[i]? = some e2 ∧ e.consumed ≤ e2.consumed) ∧
      (processPredation animals).Sublist (markVictims animals).1 ∧
      (aging animals).map Entity.consumed = animals.map Entity.consumed ∧
      (reproductionLoop animals).1.map Entity.consumed = animals.map Entity.consumed ∧
      reproduction animals = (reproductionLoop animals).1 ++ (reproductionLoop animals).2 ∧
      (extinction animals).Sublist animals) ∧
    (∀ (width height : Int) (animals : List A2.Entity),
      (A2.moveAnimals width height animals).map A2.Entity.consumed
        = animals.map A2.Entity.consumed ∧
      (A2.markVictims animals).1.length = animals.length ∧
      (∀ (i : Nat) (e : A2.Entity), animals[i]? = some e →
        ∃ e2, (A2.markVictims animals).1[i]? = some e2 ∧ e.consumed ≤ e2.consumed) ∧
      (A2.processPredation animals).Sublist (A2.markVictims animals).1 ∧
      (A2.aging animals).map A2.Entity.consumed = animals.map A2.Entity.consumed ∧
      A2.reproduction animals = animals ++ A2.reproductionLoop animals ∧
      (A2.extinction animals).Sublist animals) := by
  refine ⟨?_, fun _ _ _ _ => rfl, ?_, ?_, ?_⟩
  · intro width height pop hpop
    apply simulateStep_toA2
    intro e he
    cases e with
    | prey q => rfl
    | predator p =>
      have := hpop p he
      simp only [Predator.priorReproductions] at this
      simp only [Entity.noPriorReproduction, decide_eq_true_eq]
      omega
  · refine ⟨by decide, by decide, by decide, by decide, by decide⟩
  · intro width height animals
    refine ⟨?_, markVictims_length animals, ?_, processPredation_sublist animals, ?_, ?_, rfl,
      List.filter_sublist animals⟩
    · simp [moveAnimals, Entity.consumed_move]
    · intro i e he
      refine ⟨e.eatTimes (hitsOf animals i).length, ?_, Entity.consumed_eatTimes _ e⟩
      rw [markVictims_getElem?, he, Option.map_some']
    · simp [aging, Entity.consumed_increaseAge]
    · rw [reproductionLoop_eq]
      simp [Entity.afterReproduce_consumed]
  · intro width height animals
    refine ⟨?_, (markVictims_a2_consumed animals).1, (markVictims_a2_consumed animals).2,
      removeVictims_sublist _ _, ?_, rfl, List.filter_sublist animals⟩
    · simp [A2.moveAnimals, consumed_a2_move]
    · simp [A2.aging, consumed_a2_increaseAge]

theorem variants_differ_in_predator_threshold_witness :
    (∀ p : Predator, Entity.predator p ∈ twoPreyOneHunter → p.priorReproductions = 0) ∧
    A2.simulateStep 4 4 (twoPreyOneHunter.map Entity.toA2)
      = (simulateStep 4 4 twoPreyOneHunter).map Entity.toA2 :=
  ⟨by
    intro p hp
    simp [twoPreyOneHunter] at hp
    subst hp
    rfl,
   variants_differ_in_predator_threshold.1 4 4 twoPreyOneHunter (by
    intro p hp
    simp [twoPreyOneHunter] at hp
    subst hp
    rfl)⟩

/-! ## A step whose removal loop erases past the end -/

theorem processPredation_of_checked (animals r : List Entity)
    (h : processPredationChecked animals = some r) : processPredation animals = r :=
  removeVictims_of_checked _ _ _ h

theorem simulateStep_of_checked (w h : Int) (animals r : List Entity)
    (hr : simulateStepChecked w h animals = some r) : simulateStep w h animals = r := by
  unfold simulateStepChecked at hr
  cases hp : processPredationChecked (moveAnimals w h animals) with
  | none => rw [hp] at hr; cases hr
  | some survivors =>
    rw [hp] at hr
    simp only [Option.some.injEq] at hr
    unfold simulateStep
    rw [processPredation_of_checked _ _ hp]
    exact hr

theorem simulate_of_checked (w h : Int) (n : Nat) :
    ∀ (animals r : List Entity), simulateChecked w h n animals = some r →
      simulate w h n animals = r := by
  induction n with
  | zero =>
    intro animals r hr
    simpa [simulateChecked, simulate] using hr
  | succ n ih =>
    intro animals r hr
    simp only [simulateChecked] at hr
    cases hp : simulateChecked w h n animals with
    | none => rw [hp] at hr; cases hr
    | some population =>
      rw [hp] at hr
      simp only [simulate]
      rw [ih animals population hp]
      exact simulateStep_of_checked w h _ _ hr

/-- Whenever every `erase` of the removal loop is in range, no prey that is left after
the predation phase stands on the cell of a predator of the population the phase started
from. -/
theorem processPredationChecked_no_prey_on_predator_cell (animals r : List Entity)
    (h : processPredationChecked animals = some r) :
    ∀ v ∈ r, ∀ p ∈ animals,
      p.isPredator = true → v.isPredator = false → ¬ (p.getX = v.getX ∧ p.getY = v.getY) := by
  rw [← processPredation_of_checked animals r h]
  exact processPredation_no_prey_on_predator_cell animals

/-- Whenever every `erase` of the first `n` steps is in range, a population that starts
inside a grid with `width ≥ 1` and `height ≥ 1` is inside the grid after the `n` steps,
and the counting loop of `printField` stays inside its table. -/
theorem simulateChecked_stays_on_grid (width height : Int) (hw : 1 ≤ width) (hh : 1 ≤ height)
    (pop : List Entity)
    (hpop : ∀ e ∈ pop, 0 ≤ e.getX ∧ e.getX < width ∧ 0 ≤ e.getY ∧ e.getY < height)
    (n : Nat) (r : List Entity) (hr : simulateChecked width height n pop = some r) :
    (∀ e ∈ r, 0 ≤ e.getX ∧ e.getX < width ∧ 0 ≤ e.getY ∧ e.getY < height) ∧
    (printFieldCounts width height r).isSome = true := by
  rw [← simulate_of_checked width height n pop r hr]
  have h := simulate_stays_on_grid width height hw hh pop hpop
  exact ⟨h.2.1 n, h.2.2 n⟩

/-- Claim C1, evaluated on the code where it fails: after the first movement of
`twoPreyThreeHunters` the two prey and the three predators stand on one cell; each prey is
pushed to `preyToRemove` once per predator, the sorted indices are 1, 1, 1, 0, 0, 0, the
first five `erase` calls empty the vector, and the sixth is an `erase` at index 0 of an
empty vector, which has undefined behaviour: the predation phase has no result. -/
theorem processPredation_erases_past_the_end :
    (moveAnimals 4 4 twoPreyThreeHunters).map cellOf
      = [(false, 0, 2), (false, 0, 2), (true, 0, 2), (true, 0, 2), (true, 0, 2)] ∧
    sortGreater (markVictims (moveAnimals 4 4 twoPreyThreeHunters)).2 = [1, 1, 1, 0, 0, 0] ∧
    removeVictimsChecked (markVictims (moveAnimals 4 4 twoPreyThreeHunters)).1 [1, 1, 1, 0, 0]
      = some [] ∧
    removeVictimsChecked ([] : List Entity) [0] = none ∧
    processPredationChecked (moveAnimals 4 4 twoPreyThreeHunters) = none := by
  decide

/-- Claim C11, evaluated on the code where it fails: every animal of
`twoPreyThreeHunters` is inside the 4x4 grid, and so is every animal after the movement
phase of the first step; the removal loop of that step then calls `erase` at index 0 of
an empty vector, which has undefined behaviour, so the first step, and with it every
longer run, has no result and no population for `printField` to read. -/
theorem simulateStep_undefined_inside_grid :
    (∀ e ∈ twoPreyThreeHunters, 0 ≤ e.getX ∧ e.getX < 4 ∧ 0 ≤ e.getY ∧ e.getY < 4) ∧
    (∀ e ∈ moveAnimals 4 4 twoPreyThreeHunters,
      0 ≤ e.getX ∧ e.getX < 4 ∧ 0 ≤ e.getY ∧ e.getY < 4) ∧
    simulateStepChecked 4 4 twoPreyThreeHunters = none ∧
    (∀ n : Nat, simulateChecked 4 4 (n + 1) twoPreyThreeHunters = none) := by
  have h1 : simulateStepChecked 4 4 twoPreyThreeHunters = none := by decide
  refine ⟨by decide, by decide, h1, ?_⟩
  intro n
  induction n with
  | zero => simp only [simulateChecked]; exact h1
  | succ n ih =>
    show (match simulateChecked 4 4 (n + 1) twoPreyThreeHunters with
      | some population => simulateStepChecked 4 4 population
      | none => none) = none
    rw [ih]

end PredatorPrey
